import Mathlib

/-!
The path-command dispatcher of `agg-plot/lua-draw.cpp`.

A shallow embedding of the Lua binding that builds AGG paths:

* `path_cmd` applies one command of `path_cmd_e` to a path buffer, reading its
  arguments from a `cmd_call_stack` frame;
* `agg_path_cmd` is the C closure bound to a command: it checks the path
  handle, marshals the Lua arguments into the frame following the command's
  signature string, and applies the command between a lock and an unlock of
  `agg_mutex`;
* `agg_path_index` resolves a key against `cmd_table`;
* `agg_path_new`, `agg_ellipse_new`, `agg_circle_new` are the constructors.

The Lua stack is a list of values (index 1 is the head), the userdata heap is
a list of objects (a userdata value holds its index), `agg_mutex` is a flag,
and a ghost trace records every lock, unlock and `path_cmd` call.
-/

namespace LuaDraw

/-! ## Numbers and strings -/

/-- A C `double`, kept as its IEEE-754 binary64 bit pattern. -/
structure Double where
  bits : Nat
  deriving DecidableEq, Repr

/-- The biased exponent field (bits 52..62) of a double. -/
def Double.exponent (d : Double) : Nat := (d.bits / 2 ^ 52) % 2048

/-- A double is finite when it is neither an infinity nor a NaN, that is when
its exponent field is not all ones. -/
def Double.isfinite (d : Double) : Bool := d.exponent != 2047

/-- The NUL character that ends a C string. -/
def NUL : Char := Char.ofNat 0

/-- The C string a `const char *` into the bytes of `s` denotes: the characters
before the first NUL. -/
def cstr (s : String) : List Char := s.toList.takeWhile (fun c => c != NUL)

/-- The C library `strcmp` on two C strings: zero when they are equal, otherwise
the sign of the difference of the first characters that differ. -/
def strcmp : List Char → List Char → Int
  | [], [] => 0
  | [], _ :: _ => -1
  | _ :: _, [] => 1
  | a :: as, b :: bs =>
    if a.toNat < b.toNat then -1
    else if b.toNat < a.toNat then 1
    else strcmp as bs

/-! ## Lua values, the stack and the host library -/

/-- A value in a Lua stack slot, by its type tag. `TNONE` is what an index past
the top of the stack holds. A userdata holds the index of its object in the
heap; the only C closures of this module are those `agg_path_index` creates,
with the two upvalues `id` and `signature`. -/
inductive LuaValue
  | TNONE
  | TNIL
  | TBOOLEAN (b : Bool)
  | TNUMBER (d : Double)
  | TSTRING (s : String)
  | TUSERDATA (ref : Nat)
  | TFUNCTION (id : Int) (signature : String)
  deriving DecidableEq, Repr

/-- The conversions between numbers and strings of the host Lua library, which
the C API applies on `lua_tostring` of a number and `lua_isnumber` of a string. -/
structure lua_host where
  number2str : Double → String
  str2number : String → Option Double

/-- The value at a 1-based stack index. -/
def stack_at (L : List LuaValue) (index : Nat) : LuaValue :=
  match index with
  | 0 => LuaValue.TNONE
  | n + 1 => L.getD n LuaValue.TNONE

/-- The index of the top of the stack. -/
def lua_gettop (L : List LuaValue) : Nat := L.length

/-- A number, or a string convertible to a number. -/
def lua_isnumber (H : lua_host) (v : LuaValue) : Bool :=
  match v with
  | LuaValue.TNUMBER _ => true
  | LuaValue.TSTRING s => (H.str2number s).isSome
  | _ => false

/-- The number a value converts to (zero when it does not). -/
def lua_tonumber (H : lua_host) (v : LuaValue) : Double :=
  match v with
  | LuaValue.TNUMBER d => d
  | LuaValue.TSTRING s => (H.str2number s).getD ⟨0⟩
  | _ => ⟨0⟩

/-- A string, or a number (which always converts to a string). -/
def lua_isstring (v : LuaValue) : Bool :=
  match v with
  | LuaValue.TSTRING _ => true
  | LuaValue.TNUMBER _ => true
  | _ => false

/-- The C string `lua_tostring` returns: `none` stands for `NULL`. -/
def lua_tostring (H : lua_host) (v : LuaValue) : Option (List Char) :=
  match v with
  | LuaValue.TSTRING s => some (cstr s)
  | LuaValue.TNUMBER d => some (cstr (H.number2str d))
  | _ => none

/-- True for a value of boolean type only. -/
def lua_isboolean (v : LuaValue) : Bool :=
  match v with
  | LuaValue.TBOOLEAN _ => true
  | _ => false

/-- The C `int` that `lua_toboolean` returns: 0 for `false`, `nil` and an
absent value, 1 for everything else. -/
def lua_toboolean (v : LuaValue) : Int :=
  match v with
  | LuaValue.TBOOLEAN false => 0
  | LuaValue.TNIL => 0
  | LuaValue.TNONE => 0
  | _ => 1

/-- The errors this module raises, each with the stack index it was raised for.
`expected_boolean argc` is `luaL_error (L, "expected boolean for argument #%i", argc)`;
the other three are raised by `gs_check_number`, `gs_check_userdata` and
`luaL_checknumber` when handed that index. -/
inductive lua_error
  | expected_boolean (argc : Nat)
  | invalid_number (index : Nat)
  | invalid_userdata (index : Nat)
  | bad_argument (narg : Nat)
  deriving DecidableEq, Repr

/-- Modelled from the spec: `gs_check_number (L, index, FP_CHECK_NORMAL)`, whose
definition (gs-types.c) is not among the sources. The value at `index` must be
numeric and finite (neither NaN nor infinite); otherwise an error is raised
for `index`. What position the message of that error names is not modelled. -/
def gs_check_number (H : lua_host) (L : List LuaValue) (index : Nat) :
    Except lua_error Double :=
  if lua_isnumber H (stack_at L index) then
    if (lua_tonumber H (stack_at L index)).isfinite then
      Except.ok (lua_tonumber H (stack_at L index))
    else Except.error (lua_error.invalid_number index)
  else Except.error (lua_error.invalid_number index)

/-- The Lua auxiliary library `luaL_checknumber`: the number at `narg`, or an
error raised for `narg` when the value is not numeric. -/
def luaL_checknumber (H : lua_host) (L : List LuaValue) (narg : Nat) :
    Except lua_error Double :=
  if lua_isnumber H (stack_at L narg) then Except.ok (lua_tonumber H (stack_at L narg))
  else Except.error (lua_error.bad_argument narg)

/-! ## The path buffer -/

/-- Modelled from the spec: one entry of the Path Buffer (`agg::path_storage`, the
vertex engine, is a library outside the sources): a subpath start, a line
segment, an elliptical arc segment, a quadratic or cubic Bezier segment, or
the close of a subpath, each with the arguments its primitive received. -/
inductive path_entry
  | move_to (x y : Double)
  | line_to (x y : Double)
  | arc_to (rx ry angle : Double) (large_arc_flag sweep_flag : Bool) (x y : Double)
  | curve3 (x_ctrl y_ctrl x_to y_to : Double)
  | curve4 (x_ctrl1 y_ctrl1 x_ctrl2 y_ctrl2 x_to y_to : Double)
  | close_polygon
  deriving DecidableEq, Repr

/-- Modelled from the spec: the Path Buffer, an ordered, growable sequence of
path vertices/commands (`agg::path_storage` is a library outside the sources). -/
structure path_storage where
  entries : List path_entry
  deriving DecidableEq, Repr

namespace path_storage

/-- A newly constructed buffer has no vertex. -/
def empty : path_storage := ⟨[]⟩

/-- Modelled from the spec: vertex count introspection. -/
def total_vertices (ps : path_storage) : Nat := ps.entries.length

/-- Modelled from the spec: appends a new subpath start. -/
def move_to (ps : path_storage) (x y : Double) : path_storage :=
  ⟨ps.entries ++ [path_entry.move_to x y]⟩

/-- Modelled from the spec: the primitive that appends a line segment from the
current point. -/
def line_to (ps : path_storage) (x y : Double) : path_storage :=
  ⟨ps.entries ++ [path_entry.line_to x y]⟩

/-- True when a subpath is open: the buffer is not empty and its last entry is
not a close. -/
def subpath_open (ps : path_storage) : Bool :=
  match ps.entries.getLast? with
  | none => false
  | some path_entry.close_polygon => false
  | some _ => true

/-- Modelled from the spec: closes the current subpath; a no-op when no subpath
is open. -/
def close_polygon (ps : path_storage) : path_storage :=
  if ps.subpath_open then ⟨ps.entries ++ [path_entry.close_polygon]⟩ else ps

/-- Modelled from the spec: appends an elliptical arc segment (radii, rotation
angle, two flags, end point). -/
def arc_to (ps : path_storage) (rx ry angle : Double) (large_arc_flag sweep_flag : Bool)
    (x y : Double) : path_storage :=
  ⟨ps.entries ++ [path_entry.arc_to rx ry angle large_arc_flag sweep_flag x y]⟩

/-- Modelled from the spec: appends a quadratic Bezier segment with one control
point. -/
def curve3 (ps : path_storage) (x_ctrl y_ctrl x_to y_to : Double) : path_storage :=
  ⟨ps.entries ++ [path_entry.curve3 x_ctrl y_ctrl x_to y_to]⟩

/-- Modelled from the spec: appends a cubic Bezier segment with two control
points. -/
def curve4 (ps : path_storage) (x_ctrl1 y_ctrl1 x_ctrl2 y_ctrl2 x_to y_to : Double) :
    path_storage :=
  ⟨ps.entries ++ [path_entry.curve4 x_ctrl1 y_ctrl1 x_ctrl2 y_ctrl2 x_to y_to]⟩

end path_storage

/-! ## Commands and the argument frame -/

/-- The value -1 of `enum path_cmd_e`. -/
def CMD_ERROR : Int := -1
/-- The value 0 of `enum path_cmd_e`. -/
def CMD_MOVE_TO : Int := 0
/-- The value 1 of `enum path_cmd_e`. -/
def CMD_LINE_TO : Int := 1
/-- The value 2 of `enum path_cmd_e`. -/
def CMD_CLOSE : Int := 2
/-- The value 3 of `enum path_cmd_e`. -/
def CMD_ARC_TO : Int := 3
/-- The value 4 of `enum path_cmd_e`. -/
def CMD_CURVE3 : Int := 4
/-- The value 5 of `enum path_cmd_e`. -/
def CMD_CURVE4 : Int := 5

/-- The frame `struct cmd_call_stack`: `double f[6]` and `int b[2]`. A slot that
was never written holds `none`. -/
structure cmd_call_stack where
  f : List (Option Double)
  b : List (Option Int)
  deriving DecidableEq, Repr

namespace cmd_call_stack

/-- A frame as the declaration `struct cmd_call_stack s[1]` leaves it: no slot
written. -/
def uninit : cmd_call_stack := ⟨List.replicate 6 none, List.replicate 2 none⟩

/-- The read `s->f[i]`: `none` when the slot was never written. -/
def get_f (s : cmd_call_stack) (i : Nat) : Option Double := (s.f.get? i).join

/-- The read `s->b[i]`: `none` when the slot was never written. -/
def get_b (s : cmd_call_stack) (i : Nat) : Option Int := (s.b.get? i).join

/-- The write `s->f[i] = v` at a constant index inside `f[6]`. -/
def write_f (s : cmd_call_stack) (i : Nat) (v : Double) : cmd_call_stack :=
  { s with f := s.f.set i (some v) }

/-- The write `s->b[i] = v` at a constant index inside `b[2]`. -/
def write_b (s : cmd_call_stack) (i : Nat) (v : Int) : cmd_call_stack :=
  { s with b := s.b.set i (some v) }

/-- The write `s->f[i] = v` at a computed index: `none` when `i` is outside
`f[6]`. -/
def set_f (s : cmd_call_stack) (i : Nat) (v : Double) : Option cmd_call_stack :=
  if i < 6 then some (s.write_f i v) else none

/-- The write `s->b[i] = v` at a computed index: `none` when `i` is outside
`b[2]`. -/
def set_b (s : cmd_call_stack) (i : Nat) (v : Int) : Option cmd_call_stack :=
  if i < 2 then some (s.write_b i v) else none

end cmd_call_stack

/-- The conversion of a C `int` to `bool` at a call. -/
def int_to_bool (v : Int) : Bool := v != 0

/-- The function `path_cmd`: the switch over the command, each case applying one
primitive of the buffer to slots of the frame. The result is `none` when a slot
the case reads was never written. -/
def path_cmd (ps : path_storage) (cmd : Int) (s : cmd_call_stack) : Option path_storage :=
  if cmd = CMD_MOVE_TO then
    match s.get_f 0, s.get_f 1 with
    | some f0, some f1 => some (ps.move_to f0 f1)
    | _, _ => none
  else if cmd = CMD_LINE_TO then
    if ps.total_vertices = 0 then
      match s.get_f 0, s.get_f 1 with
      | some f0, some f1 => some (ps.move_to f0 f1)
      | _, _ => none
    else
      match s.get_f 0, s.get_f 1 with
      | some f0, some f1 => some (ps.line_to f0 f1)
      | _, _ => none
  else if cmd = CMD_CLOSE then
    some ps.close_polygon
  else if cmd = CMD_ARC_TO then
    match s.get_f 0, s.get_f 1, s.get_f 2, s.get_b 0, s.get_b 1, s.get_f 3, s.get_f 4 with
    | some f0, some f1, some f2, some b0, some b1, some f3, some f4 =>
      some (ps.arc_to f0 f1 f2 (int_to_bool b0) (int_to_bool b1) f3 f4)
    | _, _, _, _, _, _, _ => none
  else if cmd = CMD_CURVE3 then
    match s.get_f 0, s.get_f 1, s.get_f 2, s.get_f 3 with
    | some f0, some f1, some f2, some f3 => some (ps.curve3 f0 f1 f2 f3)
    | _, _, _, _ => none
  else if cmd = CMD_CURVE4 then
    match s.get_f 0, s.get_f 1, s.get_f 2, s.get_f 3, s.get_f 4, s.get_f 5 with
    | some f0, some f1, some f2, some f3, some f4, some f5 =>
      some (ps.curve4 f0 f1 f2 f3 f4 f5)
    | _, _, _, _, _, _ => none
  else
    some ps

/-! ## The command table -/

/-- An entry `struct path_cmd_reg` of the table; `none` stands for `NULL`. -/
structure path_cmd_reg where
  id : Int
  cmd : Option String
  signature : Option String
  deriving DecidableEq, Repr

/-- The static array `cmd_table`, its closing sentinel included. -/
def cmd_table : List path_cmd_reg :=
  [ ⟨CMD_MOVE_TO, some "move_to", some "ff"⟩,
    ⟨CMD_LINE_TO, some "line_to", some "ff"⟩,
    ⟨CMD_CLOSE, some "close", some ""⟩,
    ⟨CMD_ARC_TO, some "arc_to", some "fffbbff"⟩,
    ⟨CMD_CURVE3, some "curve3", some "ffff"⟩,
    ⟨CMD_CURVE4, some "curve4", some "ffffff"⟩,
    ⟨CMD_ERROR, none, none⟩ ]

/-- The scan `for (r = cmd_table; r->cmd; r++) if (strcmp (key, r->cmd) == 0) break;`:
the entry `r` points to when the loop ends, or `none` if the scan leaves the
array. -/
def cmd_table_scan (key : List Char) : List path_cmd_reg → Option path_cmd_reg
  | [] => none
  | r :: rest =>
    match r.cmd with
    | none => some r
    | some c => if strcmp key (cstr c) = 0 then some r else cmd_table_scan key rest

/-! ## The world: userdata heap, geometry mutex, trace -/

/-- Modelled from the spec: the Ellipse descriptor {center_x, center_y, radius_x,
radius_y, rotation, clockwise} (`draw::ellipse` is declared outside the
sources). `rotation` is the fifth argument of `init`, the integer literal 0 in
both constructors. -/
structure ellipse where
  center_x : Double
  center_y : Double
  radius_x : Double
  radius_y : Double
  rotation : Int
  clockwise : Bool
  deriving DecidableEq, Repr

/-- Modelled from the spec: `init` stores its six arguments in the descriptor
(`draw::ellipse` is declared outside the sources). -/
def ellipse.init (x y rx ry : Double) (rotation : Int) (cw : Bool) : ellipse :=
  ⟨x, y, rx, ry, rotation, cw⟩

/-- An object of the userdata heap: a path, or an ellipse (`none` until `init`
has run on it). -/
inductive gs_object
  | path (ps : path_storage)
  | ellipse (e : Option ellipse)
  deriving DecidableEq, Repr

/-- What the trace records: a lock or unlock of `agg_mutex`, or a call of
`path_cmd` on the path at `ref` with command `cmd`. -/
inductive Event
  | lock
  | unlock
  | path_cmd (ref : Nat) (cmd : Int)
  deriving DecidableEq, Repr

/-- The state outside the Lua stack: the userdata heap, whether `agg_mutex` is
held, and the trace of events so far. -/
structure World where
  objects : List gs_object
  agg_mutex : Bool
  trace : List Event
  deriving DecidableEq, Repr

/-- How a call of a C function of the module ends: it returns results to Lua, it
raises a Lua error, its behaviour is undefined (a write outside the frame or a
read of a slot never written), or it waits for a mutex that is held. -/
inductive Outcome
  | returned (results : List LuaValue)
  | raised (e : lua_error)
  | undefined
  | blocked
  deriving DecidableEq, Repr

/-- How the marshalling loop can end without a frame. -/
inductive Fault
  | raised (e : lua_error)
  | undefined
  deriving DecidableEq, Repr

/-- The call `pthread_mutex_lock (agg_mutex)`: `none` when the mutex is held, in
which case the caller waits. -/
def pthread_mutex_lock (w : World) : Option World :=
  if w.agg_mutex then none
  else some { w with agg_mutex := true, trace := w.trace ++ [Event.lock] }

/-- The call `pthread_mutex_unlock (agg_mutex)`. -/
def pthread_mutex_unlock (w : World) : World :=
  { w with agg_mutex := false, trace := w.trace ++ [Event.unlock] }

/-- The buffer of the path object at `ref`, when there is one. -/
def World.path_at (w : World) (ref : Nat) : Option path_storage :=
  match w.objects.get? ref with
  | some (gs_object.path ps) => some ps
  | _ => none

/-- The call `path_cmd (p, cmd, s)` on the path object at `ref`: the buffer is
replaced by the result and the call is recorded. -/
def World.call_path_cmd (w : World) (ref : Nat) (cmd : Int) (s : cmd_call_stack) : Option World :=
  match w.path_at ref with
  | none => none
  | some ps =>
    match path_cmd ps cmd s with
    | none => none
    | some ps1 =>
      some { w with objects := w.objects.set ref (gs_object.path ps1),
                    trace := w.trace ++ [Event.path_cmd ref cmd] }

/-- Modelled from the spec: `check_agg_path (L, index)`, that is
`gs_check_userdata (L, index, GS_DRAW_PATH)`, defined outside the sources: the
value at `index` must be a handle tagged as a path; otherwise an error naming
`index` is raised. The result is the heap index of the path. -/
def check_agg_path (w : World) (L : List LuaValue) (index : Nat) : Except lua_error Nat :=
  match stack_at L index with
  | LuaValue.TUSERDATA ref =>
    match w.path_at ref with
    | some _ => Except.ok ref
    | none => Except.error (lua_error.invalid_userdata index)
  | _ => Except.error (lua_error.invalid_userdata index)

/-! ## The entry points -/

/-- The constructor `agg_path_new`. `push_new_object` allocates an empty path and
pushes its handle, so `lua_gettop` counts the handle as well. -/
def agg_path_new (H : lua_host) (w : World) (L : List LuaValue) : World × Outcome :=
  let vs := w.objects.length
  let w1 := { w with objects := w.objects ++ [gs_object.path path_storage.empty] }
  let L1 := L ++ [LuaValue.TUSERDATA vs]
  if lua_gettop L1 ≥ 2 then
    match gs_check_number H L1 1 with
    | Except.error e => (w1, Outcome.raised e)
    | Except.ok x =>
      match gs_check_number H L1 2 with
      | Except.error e => (w1, Outcome.raised e)
      | Except.ok y =>
        let s := (cmd_call_stack.uninit.write_f 0 x).write_f 1 y
        match w1.call_path_cmd vs CMD_MOVE_TO s with
        | none => (w1, Outcome.undefined)
        | some w2 => (w2, Outcome.returned [LuaValue.TUSERDATA vs])
  else (w1, Outcome.returned [LuaValue.TUSERDATA vs])

/-- The loop of `agg_path_cmd` over the signature, with its counters `argc`,
`f_count` and `b_count` and the frame `s`. A character other than f and b
falls through the switch. -/
def agg_path_cmd_loop (H : lua_host) (L : List LuaValue) :
    List Char → Nat → Nat → Nat → cmd_call_stack → Except Fault cmd_call_stack
  | [], _, _, _, s => Except.ok s
  | c :: fc, argc, f_count, b_count, s =>
    if c = 'f' then
      match gs_check_number H L argc with
      | Except.error e => Except.error (Fault.raised e)
      | Except.ok v =>
        match s.set_f f_count v with
        | none => Except.error Fault.undefined
        | some s1 => agg_path_cmd_loop H L fc (argc + 1) (f_count + 1) b_count s1
    else if c = 'b' then
      if lua_isboolean (stack_at L argc) then
        match s.set_b b_count (lua_toboolean (stack_at L argc)) with
        | none => Except.error Fault.undefined
        | some s1 => agg_path_cmd_loop H L fc (argc + 1) f_count (b_count + 1) s1
      else Except.error (Fault.raised (lua_error.expected_boolean argc))
    else agg_path_cmd_loop H L fc argc f_count b_count s

/-- The C closure `agg_path_cmd` with its upvalues `id` and `signature`: the path
handle is checked, the arguments are marshalled from stack index 2 on, and the
command is applied between the lock and the unlock of `agg_mutex`. -/
def agg_path_cmd (H : lua_host) (id : Int) (signature : String) (w : World)
    (L : List LuaValue) : World × Outcome :=
  match check_agg_path w L 1 with
  | Except.error e => (w, Outcome.raised e)
  | Except.ok p =>
    match agg_path_cmd_loop H L (cstr signature) 2 0 0 cmd_call_stack.uninit with
    | Except.error (Fault.raised e) => (w, Outcome.raised e)
    | Except.error Fault.undefined => (w, Outcome.undefined)
    | Except.ok s =>
      match pthread_mutex_lock w with
      | none => (w, Outcome.blocked)
      | some w1 =>
        match w1.call_path_cmd p id s with
        | none => (w1, Outcome.undefined)
        | some w2 => (pthread_mutex_unlock w2, Outcome.returned [])

/-- The Lua string `lua_pushstring` makes of a C string. -/
def lua_pushstring (s : String) : String := String.mk (cstr s)

/-- The metamethod `agg_path_index`: the key at stack index 2 is looked up in
`cmd_table`; a hit returns the closure of `agg_path_cmd` over the entry's id
and signature, anything else returns nothing. -/
def agg_path_index (H : lua_host) (w : World) (L : List LuaValue) : World × Outcome :=
  if ! lua_isstring (stack_at L 2) then (w, Outcome.returned [])
  else
    match lua_tostring H (stack_at L 2) with
    | none => (w, Outcome.undefined)
    | some key =>
      match cmd_table_scan key cmd_table with
      | none => (w, Outcome.undefined)
      | some r =>
        match r.cmd, r.signature with
        | some _, some signature =>
          (w, Outcome.returned [LuaValue.TFUNCTION r.id (lua_pushstring signature)])
        | _, _ => (w, Outcome.returned [])

/-- The constructor `agg_ellipse_new`. -/
def agg_ellipse_new (H : lua_host) (w : World) (L : List LuaValue) : World × Outcome :=
  let vs := w.objects.length
  let w1 := { w with objects := w.objects ++ [gs_object.ellipse none] }
  let L1 := L ++ [LuaValue.TUSERDATA vs]
  match luaL_checknumber H L1 1 with
  | Except.error e => (w1, Outcome.raised e)
  | Except.ok x =>
    match luaL_checknumber H L1 2 with
    | Except.error e => (w1, Outcome.raised e)
    | Except.ok y =>
      match luaL_checknumber H L1 3 with
      | Except.error e => (w1, Outcome.raised e)
      | Except.ok rx =>
        match luaL_checknumber H L1 4 with
        | Except.error e => (w1, Outcome.raised e)
        | Except.ok ry =>
          ({ w1 with objects :=
               w1.objects.set vs (gs_object.ellipse (some (ellipse.init x y rx ry 0 false))) },
           Outcome.returned [LuaValue.TUSERDATA vs])

/-- The constructor `agg_circle_new`. -/
def agg_circle_new (H : lua_host) (w : World) (L : List LuaValue) : World × Outcome :=
  let vs := w.objects.length
  let w1 := { w with objects := w.objects ++ [gs_object.ellipse none] }
  let L1 := L ++ [LuaValue.TUSERDATA vs]
  match luaL_checknumber H L1 1 with
  | Except.error e => (w1, Outcome.raised e)
  | Except.ok x =>
    match luaL_checknumber H L1 2 with
    | Except.error e => (w1, Outcome.raised e)
    | Except.ok y =>
      match luaL_checknumber H L1 3 with
      | Except.error e => (w1, Outcome.raised e)
      | Except.ok r =>
        ({ w1 with objects :=
             w1.objects.set vs (gs_object.ellipse (some (ellipse.init x y r r 0 false))) },
         Outcome.returned [LuaValue.TUSERDATA vs])

/-- The ellipse descriptor of the object at `ref`, once `init` has run on it. -/
def World.ellipse_at (w : World) (ref : Nat) : Option ellipse :=
  match w.objects.get? ref with
  | some (gs_object.ellipse e) => e
  | _ => none

/-- The Lua statement `p:name (args)` on a path handle `p`: the `__index`
metamethod `agg_path_index` is called with `p` and the key `name`, and the
closure it returns is called with `p` followed by `args`. When the key is not
resolved, the world is unchanged and the outcome of the lookup is returned. -/
def method_call (H : lua_host) (w : World) (p : LuaValue) (name : String)
    (args : List LuaValue) : World × Outcome :=
  match (agg_path_index H w [p, LuaValue.TSTRING name]).2 with
  | Outcome.returned [LuaValue.TFUNCTION id signature] =>
    agg_path_cmd H id signature w (p :: args)
  | o => (w, o)

/-- A call of an entry point of the module, with the Lua stack it is given. -/
inductive Call
  | path_new (L : List LuaValue)
  | path_index (L : List LuaValue)
  | path_cmd (id : Int) (signature : String) (L : List LuaValue)
  | ellipse_new (L : List LuaValue)
  | circle_new (L : List LuaValue)
  deriving DecidableEq, Repr

/-- True for a call of the path constructor. -/
def Call.is_path_new : Call → Bool
  | Call.path_new _ => true
  | _ => false

/-- One step: the call runs in the world. -/
def Call.exec (H : lua_host) (w : World) : Call → World × Outcome
  | Call.path_new L => agg_path_new H w L
  | Call.path_index L => agg_path_index H w L
  | Call.path_cmd id signature L => agg_path_cmd H id signature w L
  | Call.ellipse_new L => agg_ellipse_new H w L
  | Call.circle_new L => agg_circle_new H w L

/-- A sequence of calls made one after the other; the sequence ends early at a
call that waits for the mutex or whose behaviour is undefined. -/
def run (H : lua_host) : World → List Call → World
  | w, [] => w
  | w, c :: cs =>
    match c.exec H w with
    | (w1, Outcome.returned _) => run H w1 cs
    | (w1, Outcome.raised _) => run H w1 cs
    | (w1, _) => w1

/-- The discipline on a trace: every `path_cmd` call happens while the mutex is
held, `held` being the state of the mutex before the first event. -/
def locked_calls_only : Bool → List Event → Bool
  | _, [] => true
  | _, Event.lock :: t => locked_calls_only true t
  | _, Event.unlock :: t => locked_calls_only false t
  | held, Event.path_cmd _ _ :: t => held && locked_calls_only held t

/-! ## The vocabulary of the specification -/

/-- An argument the validation rejects: where the signature has f, a value that
is not numeric or not finite; where it has b, a value that is not a boolean.
A missing argument is the value `TNONE`, rejected in both cases. -/
def arg_rejected (H : lua_host) (c : Char) (v : LuaValue) : Bool :=
  if c = 'f' then !(lua_isnumber H v && (lua_tonumber H v).isfinite)
  else if c = 'b' then !(lua_isboolean v)
  else false

/-- The numeric arguments of a call in call order: the arguments at the
positions where the signature has f. -/
def numeric_args (H : lua_host) : List Char → List LuaValue → List Double
  | c :: fc, v :: args =>
    if c = 'f' then lua_tonumber H v :: numeric_args H fc args else numeric_args H fc args
  | _, _ => []

/-- The boolean arguments of a call in call order, as the C `int` 0 or 1: the
arguments at the positions where the signature has b. -/
def boolean_args : List Char → List LuaValue → List Int
  | c :: fc, v :: args =>
    if c = 'b' then lua_toboolean v :: boolean_args fc args else boolean_args fc args
  | _, _ => []

/-- The frame whose first numeric slots hold `fs`, whose first boolean slots hold
`bs`, and whose other slots were never written. -/
def frame_of (fs : List Double) (bs : List Int) : cmd_call_stack :=
  ⟨fs.map some ++ List.replicate (6 - fs.length) none,
   bs.map some ++ List.replicate (2 - bs.length) none⟩

/-- The numeric slots `f[i]` that the case of `path_cmd` for a command mentions. -/
def path_cmd_reads_f (cmd : Int) : List Nat :=
  if cmd = CMD_MOVE_TO then [0, 1]
  else if cmd = CMD_LINE_TO then [0, 1]
  else if cmd = CMD_CLOSE then []
  else if cmd = CMD_ARC_TO then [0, 1, 2, 3, 4]
  else if cmd = CMD_CURVE3 then [0, 1, 2, 3]
  else if cmd = CMD_CURVE4 then [0, 1, 2, 3, 4, 5]
  else []

/-- The boolean slots `b[i]` that the case of `path_cmd` for a command mentions. -/
def path_cmd_reads_b (cmd : Int) : List Nat :=
  if cmd = CMD_ARC_TO then [0, 1] else []

/-- The command of the Path Buffer contract named `name`, applied to the
caller's arguments taken in call order. -/
def path_buffer_command (H : lua_host) (ps : path_storage) (name : String)
    (args : List LuaValue) : Option path_storage :=
  if name = "move_to" then
    match args with
    | x :: y :: _ => some (ps.move_to (lua_tonumber H x) (lua_tonumber H y))
    | _ => none
  else if name = "line_to" then
    match args with
    | x :: y :: _ =>
      if ps.total_vertices = 0 then some (ps.move_to (lua_tonumber H x) (lua_tonumber H y))
      else some (ps.line_to (lua_tonumber H x) (lua_tonumber H y))
    | _ => none
  else if name = "close" then some ps.close_polygon
  else if name = "arc_to" then
    match args with
    | rx :: ry :: angle :: large_arc_flag :: sweep_flag :: x :: y :: _ =>
      some (ps.arc_to (lua_tonumber H rx) (lua_tonumber H ry) (lua_tonumber H angle)
        (int_to_bool (lua_toboolean large_arc_flag)) (int_to_bool (lua_toboolean sweep_flag))
        (lua_tonumber H x) (lua_tonumber H y))
    | _ => none
  else if name = "curve3" then
    match args with
    | cx :: cy :: x :: y :: _ =>
      some (ps.curve3 (lua_tonumber H cx) (lua_tonumber H cy) (lua_tonumber H x)
        (lua_tonumber H y))
    | _ => none
  else if name = "curve4" then
    match args with
    | c1x :: c1y :: c2x :: c2y :: x :: y :: _ =>
      some (ps.curve4 (lua_tonumber H c1x) (lua_tonumber H c1y) (lua_tonumber H c2x)
        (lua_tonumber H c2y) (lua_tonumber H x) (lua_tonumber H y))
    | _ => none
  else none

/-- The six commands by name: the identifier and signature each name stands for. -/
def command_of_name (name : List Char) : Option (Int × String) :=
  if name = "move_to".toList then some (0, "ff")
  else if name = "line_to".toList then some (1, "ff")
  else if name = "close".toList then some (2, "")
  else if name = "arc_to".toList then some (3, "fffbbff")
  else if name = "curve3".toList then some (4, "ffff")
  else if name = "curve4".toList then some (5, "ffffff")
  else none

/-- What a lookup returns to Lua for a key whose C string is `name`: the bound
closure of the command, or nothing. -/
def resolved (name : List Char) : Outcome :=
  match command_of_name name with
  | some (id, signature) => Outcome.returned [LuaValue.TFUNCTION id signature]
  | none => Outcome.returned []

/-! ## Sample values -/

/-- A host whose number formatting and parsing are trivial; the results below
that take a host hold for every host. -/
def sample_host : lua_host := ⟨fun _ => "0", fun _ => none⟩

/-- The double 0.0. -/
def d0 : Double := ⟨0⟩
/-- The double 1.0. -/
def d1 : Double := ⟨0x3FF0000000000000⟩
/-- The double +infinity. -/
def dinf : Double := ⟨0x7FF0000000000000⟩
/-- A quiet NaN. -/
def dnan : Double := ⟨0x7FF8000000000000⟩

/-- A world with no object, the mutex free and an empty trace. -/
def World.init : World := ⟨[], false, []⟩

/-- A world holding one empty path, at heap index 0. -/
def world1 : World := ⟨[gs_object.path path_storage.empty], false, []⟩

/-- A Lua string with an embedded NUL: the five letters of close, a NUL, an x. -/
def key_close_nul : String := String.mk ['c', 'l', 'o', 's', 'e', NUL, 'x']

/-! ## Facts about the model -/

theorem strcmp_eq_zero_iff (a b : List Char) : strcmp a b = 0 ↔ a = b := by
  induction a generalizing b with
  | nil => cases b <;> simp [strcmp]
  | cons x xs ih =>
    cases b with
    | nil => simp [strcmp]
    | cons y ys =>
      simp only [strcmp]
      by_cases h1 : x.toNat < y.toNat
      · have hne : x ≠ y := by
          intro h
          subst h
          exact absurd h1 (lt_irrefl _)
        simp [h1, hne]
      · by_cases h2 : y.toNat < x.toNat
        · have hne : x ≠ y := by
            intro h
            subst h
            exact absurd h2 (lt_irrefl _)
          simp [h1, h2, hne]
        · have hxy : x = y := by
            apply Char.ext
            apply UInt32.ext
            have : x.toNat = y.toNat := le_antisymm (not_lt.mp h2) (not_lt.mp h1)
            exact this
          simp [h1, h2, hxy, ih]


theorem frame_of_get_f (fs : List Double) (bs : List Int) (i : Nat) :
    (frame_of fs bs).get_f i = fs.get? i := by
  unfold frame_of cmd_call_stack.get_f
  simp only [List.get?_eq_getElem?]
  by_cases h : i < fs.length
  · rw [List.getElem?_append_left (by simpa using h)]
    simp [List.getElem?_map, List.getElem?_eq_getElem h]
  · have h' : fs.length ≤ i := not_lt.mp h
    rw [List.getElem?_append_right (by simpa using h')]
    rw [List.getElem?_eq_none h']
    by_cases h2 : i - (List.map some fs).length < 6 - fs.length
    · simp [List.getElem?_replicate, h2]
    · simp [List.getElem?_replicate, h2]

theorem frame_of_get_b (fs : List Double) (bs : List Int) (i : Nat) :
    (frame_of fs bs).get_b i = bs.get? i := by
  unfold frame_of cmd_call_stack.get_b
  simp only [List.get?_eq_getElem?]
  by_cases h : i < bs.length
  · rw [List.getElem?_append_left (by simpa using h)]
    simp [List.getElem?_map, List.getElem?_eq_getElem h]
  · have h' : bs.length ≤ i := not_lt.mp h
    rw [List.getElem?_append_right (by simpa using h')]
    rw [List.getElem?_eq_none h']
    by_cases h2 : i - (List.map some bs).length < 2 - bs.length
    · simp [List.getElem?_replicate, h2]
    · simp [List.getElem?_replicate, h2]

theorem set_append_replicate {α : Type} (xs : List α) (n : Nat) (v : α) (h : xs.length < n) :
    (xs.map some ++ List.replicate (n - xs.length) none).set xs.length (some v)
      = (xs ++ [v]).map some ++ List.replicate (n - (xs ++ [v]).length) none := by
  have h1 : n - xs.length = (n - (xs.length + 1)) + 1 := by omega
  rw [h1, List.replicate_succ, List.set_append]
  simp

theorem frame_of_set_f (fs : List Double) (bs : List Int) (v : Double) (h : fs.length < 6) :
    (frame_of fs bs).set_f fs.length v = some (frame_of (fs ++ [v]) bs) := by
  unfold cmd_call_stack.set_f cmd_call_stack.write_f frame_of
  simp only [h, if_true]
  rw [set_append_replicate fs 6 v h]

theorem frame_of_set_b (fs : List Double) (bs : List Int) (v : Int) (h : bs.length < 2) :
    (frame_of fs bs).set_b bs.length v = some (frame_of fs (bs ++ [v])) := by
  unfold cmd_call_stack.set_b cmd_call_stack.write_b frame_of
  simp only [h, if_true]
  rw [set_append_replicate bs 2 v h]

theorem arg_rejected_f (H : lua_host) (v : LuaValue) :
    arg_rejected H 'f' v = !(lua_isnumber H v && (lua_tonumber H v).isfinite) := by
  simp [arg_rejected]

theorem arg_rejected_b (H : lua_host) (v : LuaValue) :
    arg_rejected H 'b' v = !(lua_isboolean v) := by
  simp [arg_rejected]

theorem gs_check_number_of_accepted (H : lua_host) (L : List LuaValue) (index : Nat)
    (h : arg_rejected H 'f' (stack_at L index) = false) :
    gs_check_number H L index = Except.ok (lua_tonumber H (stack_at L index)) := by
  rw [arg_rejected_f] at h
  simp only [Bool.not_eq_false', Bool.and_eq_true] at h
  simp [gs_check_number, h.1, h.2]

theorem gs_check_number_of_rejected (H : lua_host) (L : List LuaValue) (index : Nat)
    (h : arg_rejected H 'f' (stack_at L index) = true) :
    gs_check_number H L index = Except.error (lua_error.invalid_number index) := by
  rw [arg_rejected_f] at h
  unfold gs_check_number
  by_cases h1 : lua_isnumber H (stack_at L index) = true
  · by_cases h2 : (lua_tonumber H (stack_at L index)).isfinite = true
    · simp [h1, h2] at h
    · simp [h1, h2]
  · simp [h1]

/-- The error the loop raises at a rejected argument: the one `gs_check_number`
raises where the signature has f, the `luaL_error` of the loop where it has b. -/
theorem loop_cases (H : lua_host) (L : List LuaValue) :
    ∀ (fc : List Char) (argc f_count b_count : Nat) (s : cmd_call_stack),
      (∀ c ∈ fc, c = 'f' ∨ c = 'b') →
      f_count + fc.count 'f' ≤ 6 → b_count + fc.count 'b' ≤ 2 →
      (∃ s1, agg_path_cmd_loop H L fc argc f_count b_count s = Except.ok s1 ∧
          ∀ k, k < fc.length →
            arg_rejected H (fc.getD k NUL) (stack_at L (argc + k)) = false) ∨
      (∃ k e, k < fc.length ∧
          (∀ j, j < k → arg_rejected H (fc.getD j NUL) (stack_at L (argc + j)) = false) ∧
          arg_rejected H (fc.getD k NUL) (stack_at L (argc + k)) = true ∧
          agg_path_cmd_loop H L fc argc f_count b_count s = Except.error (Fault.raised e) ∧
          e = (if fc.getD k NUL = 'f' then lua_error.invalid_number (argc + k)
               else lua_error.expected_boolean (argc + k))) := by
  intro fc
  induction fc with
  | nil =>
    intro argc f_count b_count s _ _ _
    left
    exact ⟨s, by simp [agg_path_cmd_loop], by simp⟩
  | cons c fc ih =>
    intro argc f_count b_count s hfb hf hb
    have hfb' : ∀ c ∈ fc, c = 'f' ∨ c = 'b' := fun c hc => hfb c (List.mem_cons_of_mem _ hc)
    rcases hfb c (List.mem_cons_self _ _) with hc | hc
    · subst hc
      have hf' : (f_count + 1) + fc.count 'f' ≤ 6 := by
        simp only [List.count_cons_self] at hf
        omega
      have hb' : b_count + fc.count 'b' ≤ 2 := by
        have : List.count 'b' ('f' :: fc) = List.count 'b' fc := by
          rw [List.count_cons_of_ne (by decide)]
        omega
      by_cases hrej : arg_rejected H 'f' (stack_at L argc) = true
      · right
        refine ⟨0, lua_error.invalid_number argc, by simp, by simp, by simpa using hrej, ?_, by simp⟩
        simp [agg_path_cmd_loop, gs_check_number_of_rejected H L argc hrej]
      · have hacc : arg_rejected H 'f' (stack_at L argc) = false := by simpa using hrej
        have hlt : f_count < 6 := by omega
        have hstep : agg_path_cmd_loop H L ('f' :: fc) argc f_count b_count s
            = agg_path_cmd_loop H L fc (argc + 1) (f_count + 1) b_count
                (s.write_f f_count (lua_tonumber H (stack_at L argc))) := by
          simp [agg_path_cmd_loop, gs_check_number_of_accepted H L argc hacc,
            cmd_call_stack.set_f, hlt]
        rcases ih (argc + 1) (f_count + 1) b_count
            (s.write_f f_count (lua_tonumber H (stack_at L argc))) hfb' hf' hb' with
          ⟨s1, hs1, hall⟩ | ⟨k, e, hk, hpre, hbad, hloop, he⟩
        · left
          refine ⟨s1, by rw [hstep, hs1], ?_⟩
          intro k hk
          cases k with
          | zero => simpa using hacc
          | succ k =>
            have := hall k (by simpa using hk)
            simpa [Nat.add_assoc, Nat.add_comm 1 k] using this
        · right
          refine ⟨k + 1, e, by simpa using hk, ?_, ?_, by rw [hstep, hloop], ?_⟩
          · intro j hj
            cases j with
            | zero => simpa using hacc
            | succ j =>
              have := hpre j (by omega)
              simpa [Nat.add_assoc, Nat.add_comm 1 j] using this
          · simpa [Nat.add_assoc, Nat.add_comm 1 k] using hbad
          · simpa [Nat.add_assoc, Nat.add_comm 1 k] using he
    · subst hc
      have hf' : f_count + fc.count 'f' ≤ 6 := by
        have : List.count 'f' ('b' :: fc) = List.count 'f' fc := by
          rw [List.count_cons_of_ne (by decide)]
        omega
      have hb' : (b_count + 1) + fc.count 'b' ≤ 2 := by
        simp only [List.count_cons_self] at hb
        omega
      by_cases hrej : arg_rejected H 'b' (stack_at L argc) = true
      · right
        refine ⟨0, lua_error.expected_boolean argc, by simp, by simp, by simpa using hrej, ?_,
          by simp⟩
        rw [arg_rejected_b] at hrej
        have hnb : lua_isboolean (stack_at L argc) = false := by simpa using hrej
        simp [agg_path_cmd_loop, hnb]
      · have hacc : arg_rejected H 'b' (stack_at L argc) = false := by simpa using hrej
        have hisb : lua_isboolean (stack_at L argc) = true := by
          rw [arg_rejected_b] at hacc
          simpa using hacc
        have hlt : b_count < 2 := by omega
        have hstep : agg_path_cmd_loop H L ('b' :: fc) argc f_count b_count s
            = agg_path_cmd_loop H L fc (argc + 1) f_count (b_count + 1)
                (s.write_b b_count (lua_toboolean (stack_at L argc))) := by
          simp [agg_path_cmd_loop, hisb, cmd_call_stack.set_b, hlt]
        rcases ih (argc + 1) f_count (b_count + 1)
            (s.write_b b_count (lua_toboolean (stack_at L argc))) hfb' hf' hb' with
          ⟨s1, hs1, hall⟩ | ⟨k, e, hk, hpre, hbad, hloop, he⟩
        · left
          refine ⟨s1, by rw [hstep, hs1], ?_⟩
          intro k hk
          cases k with
          | zero => simpa using hacc
          | succ k =>
            have := hall k (by simpa using hk)
            simpa [Nat.add_assoc, Nat.add_comm 1 k] using this
        · right
          refine ⟨k + 1, e, by simpa using hk, ?_, ?_, by rw [hstep, hloop], ?_⟩
          · intro j hj
            cases j with
            | zero => simpa using hacc
            | succ j =>
              have := hpre j (by omega)
              simpa [Nat.add_assoc, Nat.add_comm 1 j] using this
          · simpa [Nat.add_assoc, Nat.add_comm 1 k] using hbad
          · simpa [Nat.add_assoc, Nat.add_comm 1 k] using he

theorem stack_at_cons (p : LuaValue) (args : List LuaValue) (k : Nat) :
    stack_at (p :: args) (2 + k) = args.getD k LuaValue.TNONE := by
  have : 2 + k = (k + 1) + 1 := by omega
  rw [this]
  simp [stack_at]


theorem loop_ok_frame (H : lua_host) (L : List LuaValue) :
    ∀ (fc : List Char) (rest : List LuaValue) (argc : Nat) (fs : List Double) (bs : List Int)
      (s : cmd_call_stack),
      (∀ c ∈ fc, c = 'f' ∨ c = 'b') →
      (∀ i, stack_at L (argc + i) = rest.getD i LuaValue.TNONE) →
      fs.length ≤ 6 → bs.length ≤ 2 →
      agg_path_cmd_loop H L fc argc fs.length bs.length (frame_of fs bs) = Except.ok s →
      s = frame_of (fs ++ numeric_args H fc rest) (bs ++ boolean_args fc rest) ∧
      (fs ++ numeric_args H fc rest).length ≤ 6 ∧
      (bs ++ boolean_args fc rest).length ≤ 2 ∧
      fc.length ≤ rest.length := by
  intro fc
  induction fc with
  | nil =>
    intro rest argc fs bs s _ _ hfs hbs h
    simp only [agg_path_cmd_loop, Except.ok.injEq] at h
    subst h
    cases rest <;> simp [numeric_args, boolean_args, hfs, hbs]
  | cons c fc ih =>
    intro rest argc fs bs s hfb hrest hfs hbs h
    have hfb' : ∀ c ∈ fc, c = 'f' ∨ c = 'b' := fun c hc => hfb c (List.mem_cons_of_mem _ hc)
    have h0 : stack_at L argc = rest.getD 0 LuaValue.TNONE := by simpa using hrest 0
    cases rest with
    | nil =>
      exfalso
      have hnone : stack_at L argc = LuaValue.TNONE := by simpa using h0
      rcases hfb c (List.mem_cons_self _ _) with hc | hc
      · subst hc
        simp [agg_path_cmd_loop, gs_check_number, hnone, lua_isnumber] at h
      · subst hc
        simp [agg_path_cmd_loop, hnone, lua_isboolean] at h
    | cons v rest =>
      have hv : stack_at L argc = v := by simpa using h0
      have hrest' : ∀ i, stack_at L (argc + 1 + i) = rest.getD i LuaValue.TNONE := by
        intro i
        have := hrest (i + 1)
        simpa [Nat.add_assoc, Nat.add_comm 1 i] using this
      rcases hfb c (List.mem_cons_self _ _) with hc | hc
      · subst hc
        by_cases hrej : arg_rejected H 'f' (stack_at L argc) = true
        · exfalso
          simp [agg_path_cmd_loop, gs_check_number_of_rejected H L argc hrej] at h
        · have hacc : arg_rejected H 'f' (stack_at L argc) = false := by simpa using hrej
          by_cases hlt : fs.length < 6
          · have hstep : agg_path_cmd_loop H L ('f' :: fc) argc fs.length bs.length
                (frame_of fs bs)
                = agg_path_cmd_loop H L fc (argc + 1) (fs ++ [lua_tonumber H v]).length bs.length
                    (frame_of (fs ++ [lua_tonumber H v]) bs) := by
              simp [agg_path_cmd_loop, gs_check_number_of_accepted H L argc hacc,
                frame_of_set_f fs bs _ hlt, hv]
            rw [hstep] at h
            have := ih rest (argc + 1) (fs ++ [lua_tonumber H v]) bs s hfb' hrest'
              (by simp; omega) hbs h
            simpa [numeric_args, boolean_args, List.append_assoc] using this
          · exfalso
            simp [agg_path_cmd_loop, gs_check_number_of_accepted H L argc hacc,
              cmd_call_stack.set_f, hlt] at h
      · subst hc
        by_cases hisb : lua_isboolean v = true
        · by_cases hlt : bs.length < 2
          · have hstep : agg_path_cmd_loop H L ('b' :: fc) argc fs.length bs.length
                (frame_of fs bs)
                = agg_path_cmd_loop H L fc (argc + 1) fs.length (bs ++ [lua_toboolean v]).length
                    (frame_of fs (bs ++ [lua_toboolean v])) := by
              simp [agg_path_cmd_loop, hv, hisb, frame_of_set_b fs bs _ hlt]
            rw [hstep] at h
            have := ih rest (argc + 1) fs (bs ++ [lua_toboolean v]) s hfb' hrest'
              hfs (by simp; omega) h
            simpa [numeric_args, boolean_args, List.append_assoc] using this
          · exfalso
            simp [agg_path_cmd_loop, hv, hisb, cmd_call_stack.set_b, hlt] at h
        · exfalso
          simp [agg_path_cmd_loop, hv, hisb] at h

theorem table_entry_cases (r : path_cmd_reg) (name signature : String)
    (hr : r ∈ cmd_table) (hc : r.cmd = some name) (hs : r.signature = some signature) :
    (r.id = CMD_MOVE_TO ∧ name = "move_to" ∧ signature = "ff") ∨
    (r.id = CMD_LINE_TO ∧ name = "line_to" ∧ signature = "ff") ∨
    (r.id = CMD_CLOSE ∧ name = "close" ∧ signature = "") ∨
    (r.id = CMD_ARC_TO ∧ name = "arc_to" ∧ signature = "fffbbff") ∨
    (r.id = CMD_CURVE3 ∧ name = "curve3" ∧ signature = "ffff") ∨
    (r.id = CMD_CURVE4 ∧ name = "curve4" ∧ signature = "ffffff") := by
  simp only [cmd_table, List.mem_cons, List.mem_singleton, List.not_mem_nil, or_false] at hr
  rcases hr with rfl | rfl | rfl | rfl | rfl | rfl | rfl <;> simp_all

theorem table_signature_ok (r : path_cmd_reg) (signature : String)
    (hr : r ∈ cmd_table) (hs : r.signature = some signature) :
    (∀ c ∈ cstr signature, c = 'f' ∨ c = 'b') ∧
    0 + (cstr signature).count 'f' ≤ 6 ∧ 0 + (cstr signature).count 'b' ≤ 2 ∧
    lua_pushstring signature = signature := by
  simp only [cmd_table, List.mem_cons, List.mem_singleton, List.not_mem_nil, or_false] at hr
  rcases hr with rfl | rfl | rfl | rfl | rfl | rfl | rfl <;>
    simp only [Option.some.injEq, reduceCtorEq] at hs <;> subst hs <;> decide

theorem stack_at_drop (L : List LuaValue) (i : Nat) :
    stack_at L (2 + i) = (L.drop 1).getD i LuaValue.TNONE := by
  cases L with
  | nil => simp [stack_at, show 2 + i = (i + 1) + 1 by omega]
  | cons p args => simpa using stack_at_cons p args i

theorem numeric_args_length (H : lua_host) :
    ∀ (fc : List Char) (rest : List LuaValue), fc.length ≤ rest.length →
      (numeric_args H fc rest).length = fc.count 'f' := by
  intro fc
  induction fc with
  | nil => intro rest _; cases rest <;> simp [numeric_args]
  | cons c fc ih =>
    intro rest h
    cases rest with
    | nil => simp at h
    | cons v rest =>
      have h' : fc.length ≤ rest.length := by simpa using h
      by_cases hc : c = 'f'
      · subst hc
        simp [numeric_args, ih rest h']
      · have hc' : ¬ ('f' = c) := fun h => hc h.symm
        simp [numeric_args, hc, ih rest h', List.count_cons, hc']

theorem boolean_args_length :
    ∀ (fc : List Char) (rest : List LuaValue), fc.length ≤ rest.length →
      (boolean_args fc rest).length = fc.count 'b' := by
  intro fc
  induction fc with
  | nil => intro rest _; cases rest <;> simp [boolean_args]
  | cons c fc ih =>
    intro rest h
    cases rest with
    | nil => simp at h
    | cons v rest =>
      have h' : fc.length ≤ rest.length := by simpa using h
      by_cases hc : c = 'b'
      · subst hc
        simp [boolean_args, ih rest h']
      · have hc' : ¬ ('b' = c) := fun h => hc h.symm
        simp [boolean_args, hc, ih rest h', List.count_cons, hc']

theorem path_cmd_move_to (ps : path_storage) (s : cmd_call_stack) (x y : Double)
    (hx : s.get_f 0 = some x) (hy : s.get_f 1 = some y) :
    path_cmd ps CMD_MOVE_TO s = some (ps.move_to x y) := by
  simp [path_cmd, hx, hy]

theorem path_cmd_line_to (ps : path_storage) (s : cmd_call_stack) (x y : Double)
    (hx : s.get_f 0 = some x) (hy : s.get_f 1 = some y) :
    path_cmd ps CMD_LINE_TO s
      = some (if ps.total_vertices = 0 then ps.move_to x y else ps.line_to x y) := by
  by_cases hv : ps.total_vertices = 0 <;>
    simp [path_cmd, hx, hy, hv, CMD_MOVE_TO, CMD_LINE_TO]

theorem path_cmd_close (ps : path_storage) (s : cmd_call_stack) :
    path_cmd ps CMD_CLOSE s = some ps.close_polygon := by
  simp [path_cmd, CMD_MOVE_TO, CMD_LINE_TO, CMD_CLOSE]

theorem path_cmd_arc_to (ps : path_storage) (s : cmd_call_stack)
    (rx ry angle x y : Double) (b0 b1 : Int)
    (h0 : s.get_f 0 = some rx) (h1 : s.get_f 1 = some ry) (h2 : s.get_f 2 = some angle)
    (h3 : s.get_b 0 = some b0) (h4 : s.get_b 1 = some b1)
    (h5 : s.get_f 3 = some x) (h6 : s.get_f 4 = some y) :
    path_cmd ps CMD_ARC_TO s
      = some (ps.arc_to rx ry angle (int_to_bool b0) (int_to_bool b1) x y) := by
  simp [path_cmd, h0, h1, h2, h3, h4, h5, h6, CMD_MOVE_TO, CMD_LINE_TO, CMD_CLOSE, CMD_ARC_TO]

theorem path_cmd_curve3 (ps : path_storage) (s : cmd_call_stack) (a b c d : Double)
    (h0 : s.get_f 0 = some a) (h1 : s.get_f 1 = some b) (h2 : s.get_f 2 = some c)
    (h3 : s.get_f 3 = some d) :
    path_cmd ps CMD_CURVE3 s = some (ps.curve3 a b c d) := by
  simp [path_cmd, h0, h1, h2, h3, CMD_MOVE_TO, CMD_LINE_TO, CMD_CLOSE, CMD_ARC_TO, CMD_CURVE3]

theorem path_cmd_curve4 (ps : path_storage) (s : cmd_call_stack) (a b c d e f : Double)
    (h0 : s.get_f 0 = some a) (h1 : s.get_f 1 = some b) (h2 : s.get_f 2 = some c)
    (h3 : s.get_f 3 = some d) (h4 : s.get_f 4 = some e) (h5 : s.get_f 5 = some f) :
    path_cmd ps CMD_CURVE4 s = some (ps.curve4 a b c d e f) := by
  simp [path_cmd, h0, h1, h2, h3, h4, h5, CMD_MOVE_TO, CMD_LINE_TO, CMD_CLOSE, CMD_ARC_TO,
    CMD_CURVE3, CMD_CURVE4]

theorem path_cmd_other (ps : path_storage) (cmd : Int) (s : cmd_call_stack)
    (h0 : cmd ≠ CMD_MOVE_TO) (h1 : cmd ≠ CMD_LINE_TO) (h2 : cmd ≠ CMD_CLOSE)
    (h3 : cmd ≠ CMD_ARC_TO) (h4 : cmd ≠ CMD_CURVE3) (h5 : cmd ≠ CMD_CURVE4) :
    path_cmd ps cmd s = some ps := by
  simp [path_cmd, h0, h1, h2, h3, h4, h5]

theorem path_cmd_unread (ps : path_storage) (cmd : Int) (s : cmd_call_stack)
    (h : (∃ i ∈ path_cmd_reads_f cmd, s.get_f i = none) ∨
         (∃ i ∈ path_cmd_reads_b cmd, s.get_b i = none)) :
    path_cmd ps cmd s = none := by
  unfold path_cmd_reads_f path_cmd_reads_b at h
  by_cases h0 : cmd = CMD_MOVE_TO
  · subst h0
    simp only [CMD_MOVE_TO, CMD_LINE_TO, CMD_CLOSE, CMD_ARC_TO, CMD_CURVE3, CMD_CURVE4] at h
    simp at h
    rcases h with h | h <;> simp [path_cmd, h]
  by_cases h1 : cmd = CMD_LINE_TO
  · subst h1
    simp only [CMD_MOVE_TO, CMD_LINE_TO, CMD_CLOSE, CMD_ARC_TO, CMD_CURVE3, CMD_CURVE4] at h
    simp at h
    by_cases hv : ps.total_vertices = 0 <;> rcases h with h | h <;>
      simp [path_cmd, CMD_MOVE_TO, CMD_LINE_TO, hv, h]
  by_cases h2 : cmd = CMD_CLOSE
  · subst h2
    simp [CMD_MOVE_TO, CMD_LINE_TO, CMD_CLOSE, CMD_ARC_TO, CMD_CURVE3, CMD_CURVE4] at h
  by_cases h3 : cmd = CMD_ARC_TO
  · subst h3
    simp only [CMD_MOVE_TO, CMD_LINE_TO, CMD_CLOSE, CMD_ARC_TO, CMD_CURVE3, CMD_CURVE4] at h
    simp at h
    rcases h with (h | h | h | h | h) | h | h <;>
      simp [path_cmd, CMD_MOVE_TO, CMD_LINE_TO, CMD_CLOSE, CMD_ARC_TO, h]
  by_cases h4 : cmd = CMD_CURVE3
  · subst h4
    simp only [CMD_MOVE_TO, CMD_LINE_TO, CMD_CLOSE, CMD_ARC_TO, CMD_CURVE3, CMD_CURVE4] at h
    simp at h
    rcases h with h | h | h | h <;>
      simp [path_cmd, CMD_MOVE_TO, CMD_LINE_TO, CMD_CLOSE, CMD_ARC_TO, CMD_CURVE3, h]
  by_cases h5 : cmd = CMD_CURVE4
  · subst h5
    simp only [CMD_MOVE_TO, CMD_LINE_TO, CMD_CLOSE, CMD_ARC_TO, CMD_CURVE3, CMD_CURVE4] at h
    simp at h
    rcases h with h | h | h | h | h | h <;>
      simp [path_cmd, CMD_MOVE_TO, CMD_LINE_TO, CMD_CLOSE, CMD_ARC_TO, CMD_CURVE3, CMD_CURVE4, h]
  simp [h0, h1, h2, h3, h4, h5] at h

theorem path_cmd_read (ps : path_storage) (cmd : Int) (s : cmd_call_stack)
    (hf : ∀ i ∈ path_cmd_reads_f cmd, (s.get_f i).isSome = true)
    (hb : ∀ i ∈ path_cmd_reads_b cmd, (s.get_b i).isSome = true) :
    (path_cmd ps cmd s).isSome = true := by
  unfold path_cmd_reads_f at hf
  unfold path_cmd_reads_b at hb
  by_cases h0 : cmd = CMD_MOVE_TO
  · subst h0
    simp only [if_true] at hf
    obtain ⟨x, hx⟩ := Option.isSome_iff_exists.mp (hf 0 (by simp))
    obtain ⟨y, hy⟩ := Option.isSome_iff_exists.mp (hf 1 (by simp))
    simp [path_cmd_move_to ps s x y hx hy]
  by_cases h1 : cmd = CMD_LINE_TO
  · subst h1
    simp only [if_neg h0, if_true] at hf
    obtain ⟨x, hx⟩ := Option.isSome_iff_exists.mp (hf 0 (by simp))
    obtain ⟨y, hy⟩ := Option.isSome_iff_exists.mp (hf 1 (by simp))
    simp [path_cmd_line_to ps s x y hx hy]
  by_cases h2 : cmd = CMD_CLOSE
  · subst h2
    simp [path_cmd_close]
  by_cases h3 : cmd = CMD_ARC_TO
  · subst h3
    simp only [if_neg h0, if_neg h1, if_neg h2, if_true] at hf hb
    obtain ⟨a0, e0⟩ := Option.isSome_iff_exists.mp (hf 0 (by simp))
    obtain ⟨a1, e1⟩ := Option.isSome_iff_exists.mp (hf 1 (by simp))
    obtain ⟨a2, e2⟩ := Option.isSome_iff_exists.mp (hf 2 (by simp))
    obtain ⟨a3, e3⟩ := Option.isSome_iff_exists.mp (hf 3 (by simp))
    obtain ⟨a4, e4⟩ := Option.isSome_iff_exists.mp (hf 4 (by simp))
    obtain ⟨b0, e5⟩ := Option.isSome_iff_exists.mp (hb 0 (by simp))
    obtain ⟨b1, e6⟩ := Option.isSome_iff_exists.mp (hb 1 (by simp))
    simp [path_cmd_arc_to ps s a0 a1 a2 a3 a4 b0 b1 e0 e1 e2 e5 e6 e3 e4]
  by_cases h4 : cmd = CMD_CURVE3
  · subst h4
    simp only [if_neg h0, if_neg h1, if_neg h2, if_neg h3, if_true] at hf
    obtain ⟨a0, e0⟩ := Option.isSome_iff_exists.mp (hf 0 (by simp))
    obtain ⟨a1, e1⟩ := Option.isSome_iff_exists.mp (hf 1 (by simp))
    obtain ⟨a2, e2⟩ := Option.isSome_iff_exists.mp (hf 2 (by simp))
    obtain ⟨a3, e3⟩ := Option.isSome_iff_exists.mp (hf 3 (by simp))
    simp [path_cmd_curve3 ps s a0 a1 a2 a3 e0 e1 e2 e3]
  by_cases h5 : cmd = CMD_CURVE4
  · subst h5
    simp only [if_neg h0, if_neg h1, if_neg h2, if_neg h3, if_neg h4, if_true] at hf
    obtain ⟨a0, e0⟩ := Option.isSome_iff_exists.mp (hf 0 (by simp))
    obtain ⟨a1, e1⟩ := Option.isSome_iff_exists.mp (hf 1 (by simp))
    obtain ⟨a2, e2⟩ := Option.isSome_iff_exists.mp (hf 2 (by simp))
    obtain ⟨a3, e3⟩ := Option.isSome_iff_exists.mp (hf 3 (by simp))
    obtain ⟨a4, e4⟩ := Option.isSome_iff_exists.mp (hf 4 (by simp))
    obtain ⟨a5, e5⟩ := Option.isSome_iff_exists.mp (hf 5 (by simp))
    simp [path_cmd_curve4 ps s a0 a1 a2 a3 a4 a5 e0 e1 e2 e3 e4 e5]
  simp [path_cmd_other ps cmd s h0 h1 h2 h3 h4 h5]

theorem path_cmd_some_iff (ps : path_storage) (cmd : Int) (s : cmd_call_stack) :
    (path_cmd ps cmd s).isSome = true ↔
      (∀ i ∈ path_cmd_reads_f cmd, (s.get_f i).isSome = true) ∧
      (∀ i ∈ path_cmd_reads_b cmd, (s.get_b i).isSome = true) := by
  constructor
  · intro h
    by_contra hne
    have hex : (∃ i ∈ path_cmd_reads_f cmd, s.get_f i = none) ∨
        (∃ i ∈ path_cmd_reads_b cmd, s.get_b i = none) := by
      by_contra hno
      apply hne
      constructor
      · intro i hi
        by_contra hi2
        exact hno (Or.inl ⟨i, hi, by simpa using hi2⟩)
      · intro i hi
        by_contra hi2
        exact hno (Or.inr ⟨i, hi, by simpa using hi2⟩)
    rw [path_cmd_unread ps cmd s hex] at h
    simp at h
  · rintro ⟨hf, hb⟩
    exact path_cmd_read ps cmd s hf hb

theorem get_isSome_iff {α : Type} (xs : List α) (i : Nat) :
    (xs.get? i).isSome = true ↔ i < xs.length := by
  rw [List.get?_eq_getElem?]
  by_cases h : i < xs.length
  · simp [List.getElem?_eq_getElem h, h]
  · simp [List.getElem?_eq_none (not_lt.mp h), h]

theorem table_reads (r : path_cmd_reg) (signature : String)
    (hr : r ∈ cmd_table) (hs : r.signature = some signature) :
    (∀ i, i < (cstr signature).count 'f' ↔ i ∈ path_cmd_reads_f r.id) ∧
    (∀ i, i < (cstr signature).count 'b' ↔ i ∈ path_cmd_reads_b r.id) := by
  simp only [cmd_table, List.mem_cons, List.mem_singleton, List.not_mem_nil, or_false] at hr
  rcases hr with rfl | rfl | rfl | rfl | rfl | rfl | rfl <;>
    simp only [Option.some.injEq, reduceCtorEq] at hs <;> subst hs
  · have h1 : (cstr "ff").count 'f' = 2 := by decide
    have h2 : (cstr "ff").count 'b' = 0 := by decide
    rw [h1, h2]
    simp [path_cmd_reads_f, path_cmd_reads_b, CMD_MOVE_TO, CMD_ARC_TO]
    omega
  · have h1 : (cstr "ff").count 'f' = 2 := by decide
    have h2 : (cstr "ff").count 'b' = 0 := by decide
    rw [h1, h2]
    simp [path_cmd_reads_f, path_cmd_reads_b, CMD_MOVE_TO, CMD_LINE_TO, CMD_ARC_TO]
    omega
  · have h1 : (cstr "").count 'f' = 0 := by decide
    have h2 : (cstr "").count 'b' = 0 := by decide
    rw [h1, h2]
    simp [path_cmd_reads_f, path_cmd_reads_b, CMD_MOVE_TO, CMD_LINE_TO, CMD_CLOSE, CMD_ARC_TO]
  · have h1 : (cstr "fffbbff").count 'f' = 5 := by decide
    have h2 : (cstr "fffbbff").count 'b' = 2 := by decide
    rw [h1, h2]
    simp [path_cmd_reads_f, path_cmd_reads_b, CMD_MOVE_TO, CMD_LINE_TO, CMD_CLOSE, CMD_ARC_TO]
    constructor <;> intro i <;> omega
  · have h1 : (cstr "ffff").count 'f' = 4 := by decide
    have h2 : (cstr "ffff").count 'b' = 0 := by decide
    rw [h1, h2]
    simp [path_cmd_reads_f, path_cmd_reads_b, CMD_MOVE_TO, CMD_LINE_TO, CMD_CLOSE, CMD_ARC_TO,
      CMD_CURVE3]
    omega
  · have h1 : (cstr "ffffff").count 'f' = 6 := by decide
    have h2 : (cstr "ffffff").count 'b' = 0 := by decide
    rw [h1, h2]
    simp [path_cmd_reads_f, path_cmd_reads_b, CMD_MOVE_TO, CMD_LINE_TO, CMD_CLOSE, CMD_ARC_TO,
      CMD_CURVE3, CMD_CURVE4]
    omega

/-- The frame the loop leaves for a table entry: the numeric and the boolean
arguments in call order, each kind from slot 0 on. -/
theorem loop_table_frame (H : lua_host) (L : List LuaValue) (r : path_cmd_reg)
    (signature : String) (hr : r ∈ cmd_table) (hs : r.signature = some signature)
    (s : cmd_call_stack)
    (h : agg_path_cmd_loop H L (cstr signature) 2 0 0 cmd_call_stack.uninit = Except.ok s) :
    s = frame_of (numeric_args H (cstr signature) (L.drop 1))
          (boolean_args (cstr signature) (L.drop 1)) ∧
    (numeric_args H (cstr signature) (L.drop 1)).length = (cstr signature).count 'f' ∧
    (boolean_args (cstr signature) (L.drop 1)).length = (cstr signature).count 'b' ∧
    (cstr signature).length ≤ (L.drop 1).length := by
  obtain ⟨hfb, _, _, _⟩ := table_signature_ok r signature hr hs
  have h' : agg_path_cmd_loop H L (cstr signature) 2 ([] : List Double).length
      ([] : List Int).length (frame_of [] []) = Except.ok s := h
  obtain ⟨h1, _, _, h4⟩ := loop_ok_frame H L (cstr signature) (L.drop 1) 2 [] [] s hfb
    (stack_at_drop L) (by simp) (by simp) h'
  simp only [List.nil_append] at h1
  exact ⟨h1, numeric_args_length H _ _ h4, boolean_args_length _ _ h4, h4⟩

theorem loop_table_slots (H : lua_host) (L : List LuaValue) (r : path_cmd_reg)
    (signature : String) (hr : r ∈ cmd_table) (hs : r.signature = some signature)
    (s : cmd_call_stack)
    (h : agg_path_cmd_loop H L (cstr signature) 2 0 0 cmd_call_stack.uninit = Except.ok s) :
    (∀ i, (s.get_f i).isSome = true ↔ i ∈ path_cmd_reads_f r.id) ∧
    (∀ i, (s.get_b i).isSome = true ↔ i ∈ path_cmd_reads_b r.id) := by
  obtain ⟨h1, h2, h3, _⟩ := loop_table_frame H L r signature hr hs s h
  obtain ⟨hrf, hrb⟩ := table_reads r signature hr hs
  subst h1
  constructor
  · intro i
    rw [frame_of_get_f, ← hrf i, ← h2]
    exact get_isSome_iff _ i
  · intro i
    rw [frame_of_get_b, ← hrb i, ← h3]
    exact get_isSome_iff _ i

theorem loop_table_path_cmd (H : lua_host) (L : List LuaValue) (r : path_cmd_reg)
    (signature : String) (hr : r ∈ cmd_table) (hs : r.signature = some signature)
    (s : cmd_call_stack)
    (h : agg_path_cmd_loop H L (cstr signature) 2 0 0 cmd_call_stack.uninit = Except.ok s)
    (ps : path_storage) : (path_cmd ps r.id s).isSome = true := by
  obtain ⟨hf, hb⟩ := loop_table_slots H L r signature hr hs s h
  exact path_cmd_read ps r.id s (fun i hi => (hf i).mpr hi) (fun i hi => (hb i).mpr hi)

theorem loop_table_defined (H : lua_host) (L : List LuaValue) (r : path_cmd_reg)
    (signature : String) (hr : r ∈ cmd_table) (hs : r.signature = some signature) :
    agg_path_cmd_loop H L (cstr signature) 2 0 0 cmd_call_stack.uninit
      ≠ Except.error Fault.undefined := by
  obtain ⟨hfb, hf, hb, _⟩ := table_signature_ok r signature hr hs
  rcases loop_cases H L (cstr signature) 2 0 0 cmd_call_stack.uninit hfb hf hb with
    ⟨s1, h1, _⟩ | ⟨k, e, _, _, _, h1, _⟩ <;> rw [h1] <;> simp

theorem cstr_ff : cstr "ff" = ['f', 'f'] := by decide

theorem cstr_empty : cstr "" = [] := by decide

theorem cstr_arc : cstr "fffbbff" = ['f', 'f', 'f', 'b', 'b', 'f', 'f'] := by decide

theorem cstr_ffff : cstr "ffff" = ['f', 'f', 'f', 'f'] := by decide

theorem cstr_ffffff : cstr "ffffff" = ['f', 'f', 'f', 'f', 'f', 'f'] := by decide


/-- What `path_cmd` does with the frame the loop leaves for a table entry: it
applies the command named by the entry to the caller's arguments in call
order. -/
theorem loop_table_command (H : lua_host) (r : path_cmd_reg) (name signature : String)
    (hr : r ∈ cmd_table) (hc : r.cmd = some name) (hs : r.signature = some signature)
    (p : LuaValue) (args : List LuaValue) (s : cmd_call_stack)
    (h : agg_path_cmd_loop H (p :: args) (cstr signature) 2 0 0 cmd_call_stack.uninit
      = Except.ok s) (ps : path_storage) :
    path_cmd ps r.id s = path_buffer_command H ps name args := by
  obtain ⟨h1, _, _, h4⟩ := loop_table_frame H (p :: args) r signature hr hs s h
  simp only [List.drop_one, List.tail_cons] at h1 h4
  rcases table_entry_cases r name signature hr hc hs with
    ⟨hid, hn, hsig⟩ | ⟨hid, hn, hsig⟩ | ⟨hid, hn, hsig⟩ | ⟨hid, hn, hsig⟩ |
    ⟨hid, hn, hsig⟩ | ⟨hid, hn, hsig⟩ <;> subst hn <;> subst hsig <;> rw [hid]
  · rw [cstr_ff] at h1 h4
    match args, h4 with
    | a :: b :: rest, _ =>
      simp only [numeric_args, boolean_args, if_true] at h1
      subst h1
      rw [path_cmd_move_to ps _ (lua_tonumber H a) (lua_tonumber H b)
        (by simp [frame_of_get_f]) (by simp [frame_of_get_f])]
      simp [path_buffer_command]
  · rw [cstr_ff] at h1 h4
    match args, h4 with
    | a :: b :: rest, _ =>
      simp only [numeric_args, boolean_args, if_true] at h1
      subst h1
      rw [path_cmd_line_to ps _ (lua_tonumber H a) (lua_tonumber H b)
        (by simp [frame_of_get_f]) (by simp [frame_of_get_f])]
      by_cases hv : ps.total_vertices = 0 <;> simp [path_buffer_command, hv]
  · rw [path_cmd_close]
    simp [path_buffer_command]
  · rw [cstr_arc] at h1 h4
    match args, h4 with
    | a0 :: a1 :: a2 :: a3 :: a4 :: a5 :: a6 :: rest, _ =>
      simp only [numeric_args, boolean_args, if_true] at h1
      simp at h1
      subst h1
      rw [path_cmd_arc_to ps _ (lua_tonumber H a0) (lua_tonumber H a1) (lua_tonumber H a2)
        (lua_tonumber H a5) (lua_tonumber H a6) (lua_toboolean a3) (lua_toboolean a4)
        (by simp [frame_of_get_f]) (by simp [frame_of_get_f]) (by simp [frame_of_get_f])
        (by simp [frame_of_get_b]) (by simp [frame_of_get_b])
        (by simp [frame_of_get_f]) (by simp [frame_of_get_f])]
      simp [path_buffer_command]
  · rw [cstr_ffff] at h1 h4
    match args, h4 with
    | a0 :: a1 :: a2 :: a3 :: rest, _ =>
      simp only [numeric_args, boolean_args, if_true] at h1
      subst h1
      rw [path_cmd_curve3 ps _ (lua_tonumber H a0) (lua_tonumber H a1) (lua_tonumber H a2)
        (lua_tonumber H a3)
        (by simp [frame_of_get_f]) (by simp [frame_of_get_f]) (by simp [frame_of_get_f])
        (by simp [frame_of_get_f])]
      simp [path_buffer_command]
  · rw [cstr_ffffff] at h1 h4
    match args, h4 with
    | a0 :: a1 :: a2 :: a3 :: a4 :: a5 :: rest, _ =>
      simp only [numeric_args, boolean_args, if_true] at h1
      subst h1
      rw [path_cmd_curve4 ps _ (lua_tonumber H a0) (lua_tonumber H a1) (lua_tonumber H a2)
        (lua_tonumber H a3) (lua_tonumber H a4) (lua_tonumber H a5)
        (by simp [frame_of_get_f]) (by simp [frame_of_get_f]) (by simp [frame_of_get_f])
        (by simp [frame_of_get_f]) (by simp [frame_of_get_f]) (by simp [frame_of_get_f])]
      simp [path_buffer_command]

theorem check_agg_path_ok (w : World) (L : List LuaValue) (index p : Nat)
    (h : check_agg_path w L index = Except.ok p) :
    stack_at L index = LuaValue.TUSERDATA p ∧ ∃ ps, w.path_at p = some ps := by
  unfold check_agg_path at h
  split at h
  · rename_i ref hst
    split at h
    · rename_i ps hps
      simp only [Except.ok.injEq] at h
      subst h
      exact ⟨hst, ps, hps⟩
    · simp at h
  · simp at h

theorem call_path_cmd_eq (w : World) (p : Nat) (cmd : Int) (s : cmd_call_stack)
    (ps ps1 : path_storage) (hps : w.path_at p = some ps)
    (h : path_cmd ps cmd s = some ps1) :
    w.call_path_cmd p cmd s
      = some ⟨w.objects.set p (gs_object.path ps1), w.agg_mutex,
          w.trace ++ [Event.path_cmd p cmd]⟩ := by
  simp [World.call_path_cmd, hps, h]


/-- The four ways a call of the closure bound to a table entry ends: the handle
is rejected, an argument is rejected, the mutex is held, or the command is
applied between a lock and an unlock. -/
theorem agg_path_cmd_cases (H : lua_host) (r : path_cmd_reg) (signature : String)
    (hr : r ∈ cmd_table) (hs : r.signature = some signature)
    (w : World) (L : List LuaValue) :
    (∃ e, check_agg_path w L 1 = Except.error e ∧
      agg_path_cmd H r.id signature w L = (w, Outcome.raised e)) ∨
    (∃ p e, check_agg_path w L 1 = Except.ok p ∧
      agg_path_cmd_loop H L (cstr signature) 2 0 0 cmd_call_stack.uninit
        = Except.error (Fault.raised e) ∧
      agg_path_cmd H r.id signature w L = (w, Outcome.raised e)) ∨
    (∃ p s, check_agg_path w L 1 = Except.ok p ∧
      agg_path_cmd_loop H L (cstr signature) 2 0 0 cmd_call_stack.uninit = Except.ok s ∧
      w.agg_mutex = true ∧
      agg_path_cmd H r.id signature w L = (w, Outcome.blocked)) ∨
    (∃ p s ps ps1, check_agg_path w L 1 = Except.ok p ∧
      agg_path_cmd_loop H L (cstr signature) 2 0 0 cmd_call_stack.uninit = Except.ok s ∧
      w.agg_mutex = false ∧ w.path_at p = some ps ∧ path_cmd ps r.id s = some ps1 ∧
      agg_path_cmd H r.id signature w L
        = (⟨w.objects.set p (gs_object.path ps1), false,
            w.trace ++ [Event.lock, Event.path_cmd p r.id, Event.unlock]⟩,
           Outcome.returned [])) := by
  cases hchk : check_agg_path w L 1 with
  | error e =>
    left
    exact ⟨e, rfl, by simp [agg_path_cmd, hchk]⟩
  | ok p =>
    right
    obtain ⟨_, ps, hps⟩ := check_agg_path_ok w L 1 p hchk
    cases hloop : agg_path_cmd_loop H L (cstr signature) 2 0 0 cmd_call_stack.uninit with
    | error f =>
      cases f with
      | raised e =>
        left
        exact ⟨p, e, rfl, rfl, by simp [agg_path_cmd, hchk, hloop]⟩
      | undefined =>
        exact absurd hloop (loop_table_defined H L r signature hr hs)
    | ok s =>
      right
      cases hm : w.agg_mutex with
      | true =>
        left
        exact ⟨p, s, rfl, rfl, rfl, by simp [agg_path_cmd, hchk, hloop, pthread_mutex_lock, hm]⟩
      | false =>
        right
        have hsome := loop_table_path_cmd H L r signature hr hs s hloop ps
        obtain ⟨ps1, hps1⟩ := Option.isSome_iff_exists.mp hsome
        refine ⟨p, s, ps, ps1, rfl, rfl, rfl, hps, hps1, ?_⟩
        have hps' : (⟨w.objects, true, w.trace ++ [Event.lock]⟩ : World).path_at p = some ps :=
          hps
        simp [agg_path_cmd, hchk, hloop, pthread_mutex_lock, hm,
          call_path_cmd_eq _ p r.id s ps ps1 hps' hps1, pthread_mutex_unlock]

/-- The loop fails on an argument list with a rejected argument: the error is
raised for the first rejected argument, at its stack index. -/
theorem loop_table_rejected (H : lua_host) (r : path_cmd_reg) (signature : String)
    (hr : r ∈ cmd_table) (hs : r.signature = some signature)
    (p : LuaValue) (args : List LuaValue) (k : Nat) (hk : k < (cstr signature).length)
    (hbad : arg_rejected H ((cstr signature).getD k NUL) (args.getD k LuaValue.TNONE) = true) :
    ∃ j e, j ≤ k ∧
      (∀ i, i < j →
        arg_rejected H ((cstr signature).getD i NUL) (args.getD i LuaValue.TNONE) = false) ∧
      arg_rejected H ((cstr signature).getD j NUL) (args.getD j LuaValue.TNONE) = true ∧
      agg_path_cmd_loop H (p :: args) (cstr signature) 2 0 0 cmd_call_stack.uninit
        = Except.error (Fault.raised e) ∧
      e = (if (cstr signature).getD j NUL = 'f' then lua_error.invalid_number (j + 2)
           else lua_error.expected_boolean (j + 2)) := by
  obtain ⟨hfb, hf, hb, _⟩ := table_signature_ok r signature hr hs
  rcases loop_cases H (p :: args) (cstr signature) 2 0 0 cmd_call_stack.uninit hfb hf hb with
    ⟨s1, _, hall⟩ | ⟨j, e, hj, hpre, hjbad, hloop, he⟩
  · have := hall k hk
    rw [stack_at_cons] at this
    rw [this] at hbad
    exact absurd hbad (by simp)
  · refine ⟨j, e, ?_, ?_, ?_, hloop, ?_⟩
    · by_contra hlt
      have := hpre k (by omega)
      rw [stack_at_cons] at this
      rw [this] at hbad
      exact absurd hbad (by simp)
    · intro i hi
      have := hpre i hi
      rwa [stack_at_cons] at this
    · rwa [stack_at_cons] at hjbad
    · rw [he, Nat.add_comm 2 j]

theorem cstr_move_to : cstr "move_to" = "move_to".toList := by decide

theorem cstr_line_to : cstr "line_to" = "line_to".toList := by decide

theorem cstr_close : cstr "close" = "close".toList := by decide

theorem cstr_arc_to : cstr "arc_to" = "arc_to".toList := by decide

theorem cstr_curve3 : cstr "curve3" = "curve3".toList := by decide

theorem cstr_curve4 : cstr "curve4" = "curve4".toList := by decide

theorem agg_path_index_of_key (H : lua_host) (w : World) (L : List LuaValue)
    (key : List Char) (hs : lua_isstring (stack_at L 2) = true)
    (hk : lua_tostring H (stack_at L 2) = some key) :
    agg_path_index H w L = (w, resolved key) := by
  have e1 : lua_pushstring "ff" = "ff" := by decide
  have e2 : lua_pushstring "" = "" := by decide
  have e3 : lua_pushstring "fffbbff" = "fffbbff" := by decide
  have e4 : lua_pushstring "ffff" = "ffff" := by decide
  have e5 : lua_pushstring "ffffff" = "ffffff" := by decide
  simp only [agg_path_index, hs, hk, Bool.not_true, Bool.false_eq_true, if_false,
    cmd_table, cmd_table_scan, strcmp_eq_zero_iff, cstr_move_to, cstr_line_to, cstr_close,
    cstr_arc_to, cstr_curve3, cstr_curve4, resolved, command_of_name]
  split_ifs <;> simp [e1, e2, e3, e4, e5, CMD_MOVE_TO, CMD_LINE_TO, CMD_CLOSE, CMD_ARC_TO,
    CMD_CURVE3, CMD_CURVE4]

theorem resolved_other (name : List Char)
    (h : name ∉ ["move_to".toList, "line_to".toList, "close".toList, "arc_to".toList,
      "curve3".toList, "curve4".toList]) :
    resolved name = Outcome.returned [] := by
  simp only [List.mem_cons, List.mem_singleton, List.not_mem_nil, or_false, not_or] at h
  obtain ⟨h1, h2, h3, h4, h5, h6⟩ := h
  unfold resolved command_of_name
  rw [if_neg h1, if_neg h2, if_neg h3, if_neg h4, if_neg h5, if_neg h6]

theorem resolved_number_text (name : List Char) (hc : 'c' ∉ name) (hu : '_' ∉ name) :
    resolved name = Outcome.returned [] := by
  apply resolved_other
  simp only [List.mem_cons, List.mem_singleton, List.not_mem_nil, or_false, not_or]
  refine ⟨?_, ?_, ?_, ?_, ?_, ?_⟩ <;> intro h <;> subst h
  · exact hu (by decide)
  · exact hu (by decide)
  · exact hc (by decide)
  · exact hc (by decide)
  · exact hc (by decide)
  · exact hc (by decide)

theorem command_of_name_some (n : List Char) (c : Int × String)
    (h : command_of_name n = some c) :
    (c.1 = 0 ∧ n = "move_to".toList) ∨ (c.1 = 1 ∧ n = "line_to".toList) ∨
    (c.1 = 2 ∧ n = "close".toList) ∨ (c.1 = 3 ∧ n = "arc_to".toList) ∨
    (c.1 = 4 ∧ n = "curve3".toList) ∨ (c.1 = 5 ∧ n = "curve4".toList) := by
  unfold command_of_name at h
  split_ifs at h with h1 h2 h3 h4 h5 h6 <;> simp only [Option.some.injEq] at h <;> subst h
  · exact Or.inl ⟨rfl, h1⟩
  · exact Or.inr (Or.inl ⟨rfl, h2⟩)
  · exact Or.inr (Or.inr (Or.inl ⟨rfl, h3⟩))
  · exact Or.inr (Or.inr (Or.inr (Or.inl ⟨rfl, h4⟩)))
  · exact Or.inr (Or.inr (Or.inr (Or.inr (Or.inl ⟨rfl, h5⟩))))
  · exact Or.inr (Or.inr (Or.inr (Or.inr (Or.inr ⟨rfl, h6⟩))))

theorem path_at_append (objs : List gs_object) (ps : path_storage) (m : Bool)
    (tr : List Event) :
    (⟨objs ++ [gs_object.path ps], m, tr⟩ : World).path_at objs.length = some ps := by
  simp [World.path_at]

theorem set_append_last {α : Type} (xs : List α) (a b : α) :
    (xs ++ [a]).set xs.length b = xs ++ [b] := by
  rw [List.set_append]
  simp

theorem path_at_length (w : World) : w.path_at w.objects.length = none := by
  simp [World.path_at]

/-- The call of the closure when the handle and the arguments are accepted and
the mutex is free. -/
theorem agg_path_cmd_accept (H : lua_host) (id : Int) (signature : String) (w : World)
    (L : List LuaValue) (p : Nat) (s : cmd_call_stack) (ps ps1 : path_storage)
    (hchk : check_agg_path w L 1 = Except.ok p)
    (hloop : agg_path_cmd_loop H L (cstr signature) 2 0 0 cmd_call_stack.uninit = Except.ok s)
    (hm : w.agg_mutex = false) (hps : w.path_at p = some ps)
    (hcmd : path_cmd ps id s = some ps1) :
    agg_path_cmd H id signature w L
      = (⟨w.objects.set p (gs_object.path ps1), false,
          w.trace ++ [Event.lock, Event.path_cmd p id, Event.unlock]⟩,
         Outcome.returned []) := by
  have hps' : (⟨w.objects, true, w.trace ++ [Event.lock]⟩ : World).path_at p = some ps := hps
  simp [agg_path_cmd, hchk, hloop, pthread_mutex_lock, hm,
    call_path_cmd_eq _ p id s ps ps1 hps' hcmd, pthread_mutex_unlock]

theorem agg_path_new_two (H : lua_host) (w : World) (x y : Double)
    (hx : x.isfinite = true) (hy : y.isfinite = true) :
    agg_path_new H w [LuaValue.TNUMBER x, LuaValue.TNUMBER y]
      = (⟨w.objects ++ [gs_object.path ⟨[path_entry.move_to x y]⟩], w.agg_mutex,
          w.trace ++ [Event.path_cmd w.objects.length CMD_MOVE_TO]⟩,
         Outcome.returned [LuaValue.TUSERDATA w.objects.length]) := by
  have hcmd : path_cmd path_storage.empty CMD_MOVE_TO
      ((cmd_call_stack.uninit.write_f 0 x).write_f 1 y)
      = some ⟨[path_entry.move_to x y]⟩ :=
    path_cmd_move_to _ _ x y rfl rfl
  have hps : (⟨w.objects ++ [gs_object.path path_storage.empty], w.agg_mutex, w.trace⟩ :
      World).path_at w.objects.length = some path_storage.empty := by
    rw [path_at_append]
  simp [agg_path_new, lua_gettop, gs_check_number, stack_at, lua_isnumber, lua_tonumber, hx, hy,
    call_path_cmd_eq _ _ _ _ _ _ hps hcmd, set_append_last]

theorem agg_path_new_none (H : lua_host) (w : World) :
    agg_path_new H w []
      = (⟨w.objects ++ [gs_object.path path_storage.empty], w.agg_mutex, w.trace⟩,
         Outcome.returned [LuaValue.TUSERDATA w.objects.length]) := by
  simp [agg_path_new, lua_gettop]

theorem check_agg_path_append (objs : List gs_object) (ps : path_storage) (m : Bool)
    (tr : List Event) (args : List LuaValue) :
    check_agg_path ⟨objs ++ [gs_object.path ps], m, tr⟩
      (LuaValue.TUSERDATA objs.length :: args) 1 = Except.ok objs.length := by
  simp [check_agg_path, stack_at, path_at_append]

theorem method_call_line_to (H : lua_host) (objs : List gs_object) (ps : path_storage)
    (tr : List Event) (x y : Double) (hx : x.isfinite = true) (hy : y.isfinite = true) :
    method_call H ⟨objs ++ [gs_object.path ps], false, tr⟩ (LuaValue.TUSERDATA objs.length)
        "line_to" [LuaValue.TNUMBER x, LuaValue.TNUMBER y]
      = (⟨objs ++ [gs_object.path
            (if ps.total_vertices = 0 then ps.move_to x y else ps.line_to x y)], false,
          tr ++ [Event.lock, Event.path_cmd objs.length CMD_LINE_TO, Event.unlock]⟩,
         Outcome.returned []) := by
  have hidx : (agg_path_index H ⟨objs ++ [gs_object.path ps], false, tr⟩
      [LuaValue.TUSERDATA objs.length, LuaValue.TSTRING "line_to"]).2
      = Outcome.returned [LuaValue.TFUNCTION CMD_LINE_TO "ff"] := by
    rw [agg_path_index_of_key H ⟨objs ++ [gs_object.path ps], false, tr⟩
      [LuaValue.TUSERDATA objs.length, LuaValue.TSTRING "line_to"] (cstr "line_to") rfl rfl]
    show resolved (cstr "line_to") = _
    decide
  have hloop : agg_path_cmd_loop H
      [LuaValue.TUSERDATA objs.length, LuaValue.TNUMBER x, LuaValue.TNUMBER y]
      (cstr "ff") 2 0 0 cmd_call_stack.uninit
      = Except.ok ⟨[some x, some y, none, none, none, none], [none, none]⟩ := by
    rw [cstr_ff]
    simp [agg_path_cmd_loop, gs_check_number, stack_at, lua_isnumber, lua_tonumber, hx, hy,
      cmd_call_stack.set_f, cmd_call_stack.write_f, cmd_call_stack.uninit]
  unfold method_call
  rw [hidx]
  simp only []
  rw [agg_path_cmd_accept H CMD_LINE_TO "ff" _ _ objs.length _ ps _
    (check_agg_path_append objs ps false tr _) hloop rfl (by rw [path_at_append])
    (path_cmd_line_to ps _ x y rfl rfl)]
  simp [set_append_last]

theorem method_call_close (H : lua_host) (objs : List gs_object) (ps : path_storage)
    (tr : List Event) :
    method_call H ⟨objs ++ [gs_object.path ps], false, tr⟩ (LuaValue.TUSERDATA objs.length)
        "close" []
      = (⟨objs ++ [gs_object.path ps.close_polygon], false,
          tr ++ [Event.lock, Event.path_cmd objs.length CMD_CLOSE, Event.unlock]⟩,
         Outcome.returned []) := by
  have hidx : (agg_path_index H ⟨objs ++ [gs_object.path ps], false, tr⟩
      [LuaValue.TUSERDATA objs.length, LuaValue.TSTRING "close"]).2
      = Outcome.returned [LuaValue.TFUNCTION CMD_CLOSE ""] := by
    rw [agg_path_index_of_key H ⟨objs ++ [gs_object.path ps], false, tr⟩
      [LuaValue.TUSERDATA objs.length, LuaValue.TSTRING "close"] (cstr "close") rfl rfl]
    show resolved (cstr "close") = _
    decide
  have hloop : agg_path_cmd_loop H [LuaValue.TUSERDATA objs.length]
      (cstr "") 2 0 0 cmd_call_stack.uninit = Except.ok cmd_call_stack.uninit := by
    rw [cstr_empty]
    simp [agg_path_cmd_loop]
  unfold method_call
  rw [hidx]
  simp only []
  rw [agg_path_cmd_accept H CMD_CLOSE "" _ _ objs.length _ ps _
    (check_agg_path_append objs ps false tr _) hloop rfl (by rw [path_at_append])
    (path_cmd_close ps _)]
  simp [set_append_last]

theorem agg_path_index_world (H : lua_host) (w : World) (L : List LuaValue) :
    (agg_path_index H w L).1 = w := by
  by_cases hs : lua_isstring (stack_at L 2) = true
  · cases hk : lua_tostring H (stack_at L 2) with
    | none => simp [agg_path_index, hs, hk]
    | some key => rw [agg_path_index_of_key H w L key hs hk]
  · simp [agg_path_index, hs]

theorem agg_ellipse_new_trace (H : lua_host) (w : World) (L : List LuaValue) :
    (agg_ellipse_new H w L).1.trace = w.trace ∧
    (agg_ellipse_new H w L).1.agg_mutex = w.agg_mutex := by
  unfold agg_ellipse_new
  simp only []
  split
  · exact ⟨rfl, rfl⟩
  · split
    · exact ⟨rfl, rfl⟩
    · split
      · exact ⟨rfl, rfl⟩
      · split <;> exact ⟨rfl, rfl⟩

theorem agg_circle_new_trace (H : lua_host) (w : World) (L : List LuaValue) :
    (agg_circle_new H w L).1.trace = w.trace ∧
    (agg_circle_new H w L).1.agg_mutex = w.agg_mutex := by
  unfold agg_circle_new
  simp only []
  split
  · exact ⟨rfl, rfl⟩
  · split
    · exact ⟨rfl, rfl⟩
    · split <;> exact ⟨rfl, rfl⟩

theorem call_path_cmd_some (w w2 : World) (p : Nat) (cmd : Int) (s : cmd_call_stack)
    (h : w.call_path_cmd p cmd s = some w2) :
    w2.trace = w.trace ++ [Event.path_cmd p cmd] ∧ w2.agg_mutex = w.agg_mutex := by
  unfold World.call_path_cmd at h
  split at h
  · simp at h
  · split at h
    · simp at h
    · simp only [Option.some.injEq] at h
      subst h
      exact ⟨rfl, rfl⟩

/-- The events a call of the closure adds, whatever its upvalues: none, or a lock
alone when the behaviour of `path_cmd` is undefined, or a lock, one `path_cmd`
call and an unlock. -/
theorem agg_path_cmd_trace (H : lua_host) (id : Int) (signature : String) (w : World)
    (L : List LuaValue) (hm : w.agg_mutex = false) :
    ((agg_path_cmd H id signature w L).1.trace = w.trace ∧
      (agg_path_cmd H id signature w L).1.agg_mutex = false) ∨
    ((agg_path_cmd H id signature w L).1.trace = w.trace ++ [Event.lock] ∧
      (agg_path_cmd H id signature w L).2 = Outcome.undefined) ∨
    (∃ p, (agg_path_cmd H id signature w L).1.trace
        = w.trace ++ [Event.lock, Event.path_cmd p id, Event.unlock] ∧
      (agg_path_cmd H id signature w L).1.agg_mutex = false) := by
  unfold agg_path_cmd
  cases hchk : check_agg_path w L 1 with
  | error e => exact Or.inl ⟨rfl, hm⟩
  | ok p =>
    cases hloop : agg_path_cmd_loop H L (cstr signature) 2 0 0 cmd_call_stack.uninit with
    | error f =>
      cases f with
      | raised e => exact Or.inl ⟨rfl, hm⟩
      | undefined => exact Or.inl ⟨rfl, hm⟩
    | ok s =>
      simp only [pthread_mutex_lock, hm, Bool.false_eq_true, if_false]
      cases hcall : World.call_path_cmd
          { objects := w.objects, agg_mutex := true, trace := w.trace ++ [Event.lock] }
          p id s with
      | none => exact Or.inr (Or.inl ⟨rfl, rfl⟩)
      | some w2 =>
        obtain ⟨ht, _⟩ := call_path_cmd_some _ w2 p id s hcall
        refine Or.inr (Or.inr ⟨p, ?_, rfl⟩)
        simp [pthread_mutex_unlock, ht]

theorem exec_trace (H : lua_host) (w : World) (c : Call) (hm : w.agg_mutex = false)
    (hc : c.is_path_new = false) :
    ((c.exec H w).1.trace = w.trace ∧ (c.exec H w).1.agg_mutex = false) ∨
    ((c.exec H w).1.trace = w.trace ++ [Event.lock] ∧ (c.exec H w).2 = Outcome.undefined) ∨
    (∃ p id, (c.exec H w).1.trace = w.trace ++ [Event.lock, Event.path_cmd p id, Event.unlock] ∧
      (c.exec H w).1.agg_mutex = false) := by
  cases c with
  | path_new L => simp [Call.is_path_new] at hc
  | path_index L =>
    left
    simp only [Call.exec]
    rw [agg_path_index_world]
    exact ⟨rfl, hm⟩
  | path_cmd id signature L =>
    simp only [Call.exec]
    rcases agg_path_cmd_trace H id signature w L hm with h | h | ⟨p, h⟩
    · exact Or.inl h
    · exact Or.inr (Or.inl h)
    · exact Or.inr (Or.inr ⟨p, id, h⟩)
  | ellipse_new L =>
    left
    simp only [Call.exec]
    obtain ⟨h1, h2⟩ := agg_ellipse_new_trace H w L
    exact ⟨h1, h2.trans hm⟩
  | circle_new L =>
    left
    simp only [Call.exec]
    obtain ⟨h1, h2⟩ := agg_circle_new_trace H w L
    exact ⟨h1, h2.trans hm⟩

theorem run_locked (H : lua_host) :
    ∀ (cs : List Call) (w : World), w.agg_mutex = false →
      (∀ c ∈ cs, c.is_path_new = false) →
      ∃ ev, (run H w cs).trace = w.trace ++ ev ∧ locked_calls_only false ev = true := by
  intro cs
  induction cs with
  | nil =>
    intro w _ _
    exact ⟨[], by simp [run], rfl⟩
  | cons c cs ih =>
    intro w hm hcs
    have hc := hcs c (List.mem_cons_self _ _)
    have hcs' : ∀ c ∈ cs, c.is_path_new = false := fun c h => hcs c (List.mem_cons_of_mem _ h)
    have hstep := exec_trace H w c hm hc
    cases hex : c.exec H w with
    | mk w1 o =>
      rw [hex] at hstep
      simp only at hstep
      have hstop : ∃ ev, w1.trace = w.trace ++ ev ∧ locked_calls_only false ev = true := by
        rcases hstep with ⟨h, _⟩ | ⟨h, _⟩ | ⟨p, id, h, _⟩
        · exact ⟨[], by simp [h], rfl⟩
        · exact ⟨[Event.lock], h, rfl⟩
        · exact ⟨[Event.lock, Event.path_cmd p id, Event.unlock], h, rfl⟩
      have hgo : (∃ r, o = Outcome.returned r) ∨ (∃ e, o = Outcome.raised e) →
          ∃ ev, (run H w1 cs).trace = w.trace ++ ev ∧ locked_calls_only false ev = true := by
        intro ho
        rcases hstep with ⟨h, hm1⟩ | ⟨_, hund⟩ | ⟨p, id, h, hm1⟩
        · obtain ⟨ev, hev, hl⟩ := ih w1 hm1 hcs'
          exact ⟨ev, by rw [hev, h], hl⟩
        · rcases ho with ⟨r, hr⟩ | ⟨e, he⟩
          · rw [hr] at hund
            simp at hund
          · rw [he] at hund
            simp at hund
        · obtain ⟨ev, hev, hl⟩ := ih w1 hm1 hcs'
          refine ⟨[Event.lock, Event.path_cmd p id, Event.unlock] ++ ev, ?_, ?_⟩
          · rw [hev, h]
            simp
          · simpa [locked_calls_only] using hl
      cases o with
      | returned r =>
        simp only [run, hex]
        exact hgo (Or.inl ⟨r, rfl⟩)
      | raised e =>
        simp only [run, hex]
        exact hgo (Or.inr ⟨e, rfl⟩)
      | undefined =>
        simp only [run, hex]
        exact hstop
      | blocked =>
        simp only [run, hex]
        exact hstop

theorem path_at_append_other (objs : List gs_object) (o : gs_object) (m m1 : Bool)
    (tr tr1 : List Event) (ref : Nat) (h : ref ≠ objs.length) :
    (⟨objs ++ [o], m, tr⟩ : World).path_at ref = (⟨objs, m1, tr1⟩ : World).path_at ref := by
  unfold World.path_at
  simp only [List.get?_eq_getElem?]
  by_cases hlt : ref < objs.length
  · rw [List.getElem?_append_left hlt]
  · have hgt : objs.length < ref := by omega
    rw [List.getElem?_eq_none (by simp; omega), List.getElem?_eq_none (by omega)]

/-- What the constructor does to the world: it adds one object, the new path, and
at most one event, a `path_cmd` call on that new path with no lock before it;
the mutex and the paths that existed are as before. -/
theorem agg_path_new_effect (H : lua_host) (w : World) (L : List LuaValue) :
    ((agg_path_new H w L).1.trace = w.trace ∨
      (agg_path_new H w L).1.trace
        = w.trace ++ [Event.path_cmd w.objects.length CMD_MOVE_TO]) ∧
    (agg_path_new H w L).1.agg_mutex = w.agg_mutex ∧
    w.path_at w.objects.length = none ∧
    (∀ ref, ref ≠ w.objects.length → (agg_path_new H w L).1.path_at ref = w.path_at ref) := by
  have hother : ∀ (o : gs_object) (tr : List Event) (ref : Nat), ref ≠ w.objects.length →
      (⟨w.objects ++ [o], w.agg_mutex, tr⟩ : World).path_at ref = w.path_at ref :=
    fun o tr ref h => path_at_append_other w.objects o _ w.agg_mutex tr w.trace ref h
  refine ⟨?_, ?_, path_at_length w, ?_⟩
  · unfold agg_path_new
    simp only []
    split
    · split
      · exact Or.inl rfl
      · split
        · exact Or.inl rfl
        · split
          · exact Or.inl rfl
          · rename_i w2 hcall
            exact Or.inr (call_path_cmd_some _ w2 _ _ _ hcall).1
    · exact Or.inl rfl
  · unfold agg_path_new
    simp only []
    split
    · split
      · rfl
      · split
        · rfl
        · split
          · rfl
          · rename_i w2 hcall
            exact (call_path_cmd_some _ w2 _ _ _ hcall).2
    · rfl
  · intro ref href
    unfold agg_path_new
    simp only []
    split
    · split
      · exact hother _ _ ref href
      · split
        · exact hother _ _ ref href
        · split
          · exact hother _ _ ref href
          · rename_i w2 hcall
            unfold World.call_path_cmd at hcall
            split at hcall
            · simp at hcall
            · split at hcall
              · simp at hcall
              · simp only [Option.some.injEq] at hcall
                subst hcall
                simp only [set_append_last]
                exact hother _ _ ref href
    · exact hother _ _ ref href

/-- The frame the loop leaves for arc_to called with finite numbers and booleans. -/
theorem loop_arc_to (H : lua_host) (p : LuaValue) (rx ry angle x y : Double)
    (large_arc sweep : Bool)
    (h0 : rx.isfinite = true) (h1 : ry.isfinite = true) (h2 : angle.isfinite = true)
    (h3 : x.isfinite = true) (h4 : y.isfinite = true) :
    agg_path_cmd_loop H
        [p, LuaValue.TNUMBER rx, LuaValue.TNUMBER ry, LuaValue.TNUMBER angle,
          LuaValue.TBOOLEAN large_arc, LuaValue.TBOOLEAN sweep, LuaValue.TNUMBER x,
          LuaValue.TNUMBER y]
        (cstr "fffbbff") 2 0 0 cmd_call_stack.uninit
      = Except.ok ⟨[some rx, some ry, some angle, some x, some y, none],
          [some (if large_arc then 1 else 0), some (if sweep then 1 else 0)]⟩ := by
  rw [cstr_arc]
  cases large_arc <;> cases sweep <;>
    simp [agg_path_cmd_loop, gs_check_number, stack_at, lua_isnumber, lua_tonumber,
      lua_isboolean, lua_toboolean, cmd_call_stack.set_f, cmd_call_stack.set_b,
      cmd_call_stack.write_f, cmd_call_stack.write_b, cmd_call_stack.uninit,
      h0, h1, h2, h3, h4]

theorem path_cmd_arc_frame (ps : path_storage) (rx ry angle x y : Double)
    (large_arc sweep : Bool) :
    path_cmd ps CMD_ARC_TO
        ⟨[some rx, some ry, some angle, some x, some y, none],
          [some (if large_arc then 1 else 0), some (if sweep then 1 else 0)]⟩
      = some (ps.arc_to rx ry angle large_arc sweep x y) := by
  have hcmd := path_cmd_arc_to ps
    ⟨[some rx, some ry, some angle, some x, some y, none],
      [some (if large_arc then 1 else 0), some (if sweep then 1 else 0)]⟩
    rx ry angle x y (if large_arc then 1 else 0) (if sweep then 1 else 0)
    rfl rfl rfl rfl rfl rfl rfl
  rw [hcmd]
  cases large_arc <;> cases sweep <;> simp [int_to_bool]

/-- The closure `agg_path_index` binds to the name of a table entry carries the
entry's id and signature. -/
theorem agg_path_index_table (H : lua_host) (r : path_cmd_reg) (name signature : String)
    (hr : r ∈ cmd_table) (hc : r.cmd = some name) (hs : r.signature = some signature)
    (w : World) (p : LuaValue) :
    (agg_path_index H w [p, LuaValue.TSTRING name]).2
      = Outcome.returned [LuaValue.TFUNCTION r.id signature] := by
  rw [agg_path_index_of_key H w [p, LuaValue.TSTRING name] (cstr name) rfl rfl]
  show resolved (cstr name) = _
  rcases table_entry_cases r name signature hr hc hs with
    ⟨hid, hn, hsig⟩ | ⟨hid, hn, hsig⟩ | ⟨hid, hn, hsig⟩ | ⟨hid, hn, hsig⟩ |
    ⟨hid, hn, hsig⟩ | ⟨hid, hn, hsig⟩ <;> subst hn <;> subst hsig <;> rw [hid] <;> decide

/-- The call of the closure bound to a table entry on a path handle, with the
mutex free and arguments that pass validation: between a lock and an unlock the
target buffer becomes what the named command gives on the caller's arguments
in call order. The method call `p:name (args)` is that call. -/
theorem agg_path_cmd_table_apply (H : lua_host) (r : path_cmd_reg) (name signature : String)
    (hr : r ∈ cmd_table) (hc : r.cmd = some name) (hs : r.signature = some signature)
    (p : LuaValue) (args : List LuaValue) (s : cmd_call_stack)
    (h : agg_path_cmd_loop H (p :: args) (cstr signature) 2 0 0 cmd_call_stack.uninit
      = Except.ok s)
    (w : World) (ref : Nat) (ps : path_storage)
    (hchk : check_agg_path w (p :: args) 1 = Except.ok ref)
    (hm : w.agg_mutex = false) (hps : w.path_at ref = some ps) :
    ∃ ps1, path_buffer_command H ps name args = some ps1 ∧
      agg_path_cmd H r.id signature w (p :: args)
        = (⟨w.objects.set ref (gs_object.path ps1), false,
            w.trace ++ [Event.lock, Event.path_cmd ref r.id, Event.unlock]⟩,
           Outcome.returned []) ∧
      method_call H w p name args
        = (⟨w.objects.set ref (gs_object.path ps1), false,
            w.trace ++ [Event.lock, Event.path_cmd ref r.id, Event.unlock]⟩,
           Outcome.returned []) := by
  have hsome := loop_table_path_cmd H (p :: args) r signature hr hs s h ps
  obtain ⟨ps1, hps1⟩ := Option.isSome_iff_exists.mp hsome
  have hcmd := loop_table_command H r name signature hr hc hs p args s h ps
  have hcall := agg_path_cmd_accept H r.id signature w (p :: args) ref s ps ps1 hchk h hm hps hps1
  refine ⟨ps1, by rw [← hcmd, hps1], hcall, ?_⟩
  unfold method_call
  rw [agg_path_index_table H r name signature hr hc hs w p]
  exact hcall

/-! ## The claims -/

/-- C1: on a buffer with zero vertices, `path_cmd` with LINE_TO yields exactly the
buffer that MOVE_TO with the same x, y yields, a single subpath start at
(x, y); on a buffer with at least one vertex, LINE_TO appends a line-to entry
(x, y), which is not what MOVE_TO appends. -/
theorem path_cmd_line_to_promotion (ps : path_storage) (s : cmd_call_stack) (x y : Double)
    (hx : s.get_f 0 = some x) (hy : s.get_f 1 = some y) :
    (ps.total_vertices = 0 →
      path_cmd ps CMD_LINE_TO s = path_cmd ps CMD_MOVE_TO s ∧
      path_cmd ps CMD_LINE_TO s = some ⟨[path_entry.move_to x y]⟩) ∧
    (0 < ps.total_vertices →
      path_cmd ps CMD_LINE_TO s = some ⟨ps.entries ++ [path_entry.line_to x y]⟩ ∧
      path_cmd ps CMD_LINE_TO s ≠ path_cmd ps CMD_MOVE_TO s) := by
  rw [path_cmd_line_to ps s x y hx hy, path_cmd_move_to ps s x y hx hy]
  constructor
  · intro h0
    have hnil : ps.entries = [] := by
      simpa [path_storage.total_vertices] using h0
    simp [h0, path_storage.move_to, hnil]
  · intro hpos
    have hne : ps.total_vertices ≠ 0 := by omega
    simp [hne, path_storage.move_to, path_storage.line_to]

/-- An empty buffer and a buffer with one vertex, with the frame holding (0.0, 1.0). -/
theorem path_cmd_line_to_promotion_witness :
    (path_cmd path_storage.empty CMD_LINE_TO (frame_of [d0, d1] [])
        = path_cmd path_storage.empty CMD_MOVE_TO (frame_of [d0, d1] []) ∧
      path_cmd path_storage.empty CMD_LINE_TO (frame_of [d0, d1] [])
        = some ⟨[path_entry.move_to d0 d1]⟩) ∧
    (path_cmd ⟨[path_entry.move_to d0 d0]⟩ CMD_LINE_TO (frame_of [d0, d1] [])
        = some ⟨[path_entry.move_to d0 d0, path_entry.line_to d0 d1]⟩ ∧
      path_cmd ⟨[path_entry.move_to d0 d0]⟩ CMD_LINE_TO (frame_of [d0, d1] [])
        ≠ path_cmd ⟨[path_entry.move_to d0 d0]⟩ CMD_MOVE_TO (frame_of [d0, d1] [])) :=
  ⟨(path_cmd_line_to_promotion path_storage.empty (frame_of [d0, d1] []) d0 d1
      (by decide) (by decide)).1 (by decide),
   (path_cmd_line_to_promotion ⟨[path_entry.move_to d0 d0]⟩ (frame_of [d0, d1] []) d0 d1
      (by decide) (by decide)).2 (by decide)⟩

/-- C2: for every command of the table, every world and every argument list, if an
argument is rejected (not numeric or not finite where the signature has f, not
a boolean where it has b, or missing) then the bound invocation raises an error
and leaves the world as it was: every path buffer is the buffer before the
call, with the same vertex count, and the trace has no new event, so the mutex
was never locked. -/
theorem rejected_argument_leaves_buffer (H : lua_host) (r : path_cmd_reg)
    (signature : String) (hr : r ∈ cmd_table) (hs : r.signature = some signature)
    (w : World) (p : LuaValue) (args : List LuaValue) (k : Nat)
    (hk : k < (cstr signature).length)
    (hbad : arg_rejected H ((cstr signature).getD k NUL) (args.getD k LuaValue.TNONE) = true) :
    (∃ e, agg_path_cmd H r.id signature w (p :: args) = (w, Outcome.raised e)) ∧
    (∀ ref, (agg_path_cmd H r.id signature w (p :: args)).1.path_at ref = w.path_at ref) ∧
    (∀ ref, ((agg_path_cmd H r.id signature w (p :: args)).1.path_at ref).map
        path_storage.total_vertices = (w.path_at ref).map path_storage.total_vertices) ∧
    (agg_path_cmd H r.id signature w (p :: args)).1.trace = w.trace ∧
    (agg_path_cmd H r.id signature w (p :: args)).1.agg_mutex = w.agg_mutex := by
  have hex : ∃ e, agg_path_cmd H r.id signature w (p :: args) = (w, Outcome.raised e) := by
    obtain ⟨j, e, _, _, _, hloop, _⟩ := loop_table_rejected H r signature hr hs p args k hk hbad
    rcases agg_path_cmd_cases H r signature hr hs w (p :: args) with
      ⟨e1, _, h1⟩ | ⟨_, e1, _, _, h1⟩ | ⟨_, s, _, h2, _⟩ | ⟨_, s, _, _, _, h2, _⟩
    · exact ⟨e1, h1⟩
    · exact ⟨e1, h1⟩
    · rw [hloop] at h2
      simp at h2
    · rw [hloop] at h2
      simp at h2
  obtain ⟨e, he⟩ := hex
  rw [he]
  exact ⟨⟨e, rfl⟩, fun _ => rfl, fun _ => rfl, rfl, rfl⟩

/-- An infinite third argument of arc_to, and a missing second argument of line_to. -/
theorem rejected_argument_leaves_buffer_witness :
    (∃ e, agg_path_cmd sample_host CMD_ARC_TO "fffbbff" world1
        [LuaValue.TUSERDATA 0, LuaValue.TNUMBER d1, LuaValue.TNUMBER d1, LuaValue.TNUMBER dinf]
      = (world1, Outcome.raised e)) ∧
    (agg_path_cmd sample_host CMD_ARC_TO "fffbbff" world1
        [LuaValue.TUSERDATA 0, LuaValue.TNUMBER d1, LuaValue.TNUMBER d1,
          LuaValue.TNUMBER dinf]).1.trace = [] ∧
    (∃ e, agg_path_cmd sample_host CMD_LINE_TO "ff" world1
        [LuaValue.TUSERDATA 0, LuaValue.TNUMBER d1]
      = (world1, Outcome.raised e)) :=
  have h := rejected_argument_leaves_buffer sample_host
    ⟨CMD_ARC_TO, some "arc_to", some "fffbbff"⟩ "fffbbff" (by decide) rfl world1
    (LuaValue.TUSERDATA 0) [LuaValue.TNUMBER d1, LuaValue.TNUMBER d1, LuaValue.TNUMBER dinf]
    2 (by decide) (by decide)
  have hmissing := rejected_argument_leaves_buffer sample_host
    ⟨CMD_LINE_TO, some "line_to", some "ff"⟩ "ff" (by decide) rfl world1
    (LuaValue.TUSERDATA 0) [LuaValue.TNUMBER d1] 1 (by decide) (by decide)
  ⟨h.1, h.2.2.2.1, hmissing.1⟩

/-- C4, as the code has it: resolution leaves the world as it is and depends on
the key only, whatever was dispatched before. A string key resolves by its C
string, the characters before its first NUL: to the closure over (id, signature)
when that C string is one of the six names, move_to (0, ff), line_to (1, ff),
close (2, empty), arc_to (3, fffbbff), curve3 (4, ffff), curve4 (5, ffffff), with
pairwise distinct ids, and to nothing otherwise. A number key, whose text has
neither the letter c nor an underscore, and a key that is neither a string nor
a number resolve to nothing. -/
theorem agg_path_index_resolves_c_string (H : lua_host) (w : World) (L : List LuaValue) :
    (agg_path_index H w L).1 = w ∧
    (∀ w1 : World, (agg_path_index H w1 L).2 = (agg_path_index H w L).2) ∧
    (∀ cs : List Call, (agg_path_index H (run H w cs) L).2 = (agg_path_index H w L).2) ∧
    (∀ s, stack_at L 2 = LuaValue.TSTRING s →
      (agg_path_index H w L).2 = resolved (cstr s)) ∧
    (∀ d, stack_at L 2 = LuaValue.TNUMBER d →
      'c' ∉ cstr (H.number2str d) → '_' ∉ cstr (H.number2str d) →
      (agg_path_index H w L).2 = Outcome.returned []) ∧
    (lua_isstring (stack_at L 2) = false → (agg_path_index H w L).2 = Outcome.returned []) ∧
    (resolved "move_to".toList = Outcome.returned [LuaValue.TFUNCTION 0 "ff"] ∧
     resolved "line_to".toList = Outcome.returned [LuaValue.TFUNCTION 1 "ff"] ∧
     resolved "close".toList = Outcome.returned [LuaValue.TFUNCTION 2 ""] ∧
     resolved "arc_to".toList = Outcome.returned [LuaValue.TFUNCTION 3 "fffbbff"] ∧
     resolved "curve3".toList = Outcome.returned [LuaValue.TFUNCTION 4 "ffff"] ∧
     resolved "curve4".toList = Outcome.returned [LuaValue.TFUNCTION 5 "ffffff"]) ∧
    (∀ name, name ∉ ["move_to".toList, "line_to".toList, "close".toList, "arc_to".toList,
        "curve3".toList, "curve4".toList] → resolved name = Outcome.returned []) ∧
    (∀ n1 n2 c1 c2, command_of_name n1 = some c1 → command_of_name n2 = some c2 →
      n1 ≠ n2 → c1.1 ≠ c2.1) := by
  have hpure : ∀ w1 w2 : World, (agg_path_index H w1 L).2 = (agg_path_index H w2 L).2 := by
    intro w1 w2
    by_cases hs : lua_isstring (stack_at L 2) = true
    · cases hk : lua_tostring H (stack_at L 2) with
      | none => simp [agg_path_index, hs, hk]
      | some key =>
        rw [agg_path_index_of_key H w1 L key hs hk, agg_path_index_of_key H w2 L key hs hk]
    · simp [agg_path_index, hs]
  have hworld : (agg_path_index H w L).1 = w := by
    by_cases hs : lua_isstring (stack_at L 2) = true
    · cases hk : lua_tostring H (stack_at L 2) with
      | none => simp [agg_path_index, hs, hk]
      | some key => rw [agg_path_index_of_key H w L key hs hk]
    · simp [agg_path_index, hs]
  refine ⟨hworld, fun w1 => hpure w1 w, fun cs => hpure _ w, ?_, ?_, ?_, by decide,
    resolved_other, ?_⟩
  · intro s hs
    rw [agg_path_index_of_key H w L (cstr s) (by simp [hs, lua_isstring])
      (by simp [hs, lua_tostring])]
  · intro d hd hc hu
    rw [agg_path_index_of_key H w L (cstr (H.number2str d)) (by simp [hd, lua_isstring])
      (by simp [hd, lua_tostring])]
    exact resolved_number_text _ hc hu
  · intro hs
    simp [agg_path_index, hs]
  · intro n1 n2 c1 c2 h1 h2 hne
    rcases command_of_name_some n1 c1 h1 with
      ⟨a1, b1⟩ | ⟨a1, b1⟩ | ⟨a1, b1⟩ | ⟨a1, b1⟩ | ⟨a1, b1⟩ | ⟨a1, b1⟩ <;>
    rcases command_of_name_some n2 c2 h2 with
      ⟨a2, b2⟩ | ⟨a2, b2⟩ | ⟨a2, b2⟩ | ⟨a2, b2⟩ | ⟨a2, b2⟩ | ⟨a2, b2⟩ <;>
    first
      | exact absurd (b1.trans b2.symm) hne
      | omega

/-- The keys arc_to, arc, the number 1.0 and the boolean true. -/
theorem agg_path_index_resolves_c_string_witness :
    (agg_path_index sample_host world1 [LuaValue.TUSERDATA 0, LuaValue.TSTRING "arc_to"]).2
      = Outcome.returned [LuaValue.TFUNCTION 3 "fffbbff"] ∧
    (agg_path_index sample_host world1 [LuaValue.TUSERDATA 0, LuaValue.TSTRING "arc"]).2
      = Outcome.returned [] ∧
    (agg_path_index sample_host world1 [LuaValue.TUSERDATA 0, LuaValue.TNUMBER d1]).2
      = Outcome.returned [] ∧
    (agg_path_index sample_host world1 [LuaValue.TUSERDATA 0, LuaValue.TBOOLEAN true]).2
      = Outcome.returned [] :=
  have h := agg_path_index_resolves_c_string sample_host world1
  ⟨((h [LuaValue.TUSERDATA 0, LuaValue.TSTRING "arc_to"]).2.2.2.1 "arc_to" rfl).trans
      (by decide),
   ((h [LuaValue.TUSERDATA 0, LuaValue.TSTRING "arc"]).2.2.2.1 "arc" rfl).trans (by decide),
   (h [LuaValue.TUSERDATA 0, LuaValue.TNUMBER d1]).2.2.2.2.1 d1 rfl (by decide) (by decide),
   (h [LuaValue.TUSERDATA 0, LuaValue.TBOOLEAN true]).2.2.2.2.2.1 rfl⟩

/-- Counterexample to C4 as stated: the Lua string made of close, a NUL and an x is none of
the six names, and it resolves to the closure of close. -/
theorem key_with_nul_resolves_counterexample :
    key_close_nul ∉ ["move_to", "line_to", "close", "arc_to", "curve3", "curve4"] ∧
    (agg_path_index sample_host world1
        [LuaValue.TUSERDATA 0, LuaValue.TSTRING key_close_nul]).2
      = Outcome.returned [LuaValue.TFUNCTION CMD_CLOSE ""] := by
  decide

/-- C5: for all numbers x, y, r, `circle (x, y, r)` and `ellipse (x, y, r, r)` end
in the same world with the same result, and the descriptor each creates is
{x, y, r, r, rotation 0, clockwise false}. -/
theorem circle_eq_ellipse (H : lua_host) (w : World) (x y r : Double) :
    agg_circle_new H w [LuaValue.TNUMBER x, LuaValue.TNUMBER y, LuaValue.TNUMBER r]
      = agg_ellipse_new H w
          [LuaValue.TNUMBER x, LuaValue.TNUMBER y, LuaValue.TNUMBER r, LuaValue.TNUMBER r] ∧
    (agg_circle_new H w [LuaValue.TNUMBER x, LuaValue.TNUMBER y, LuaValue.TNUMBER r]).2
      = Outcome.returned [LuaValue.TUSERDATA w.objects.length] ∧
    (agg_circle_new H w
        [LuaValue.TNUMBER x, LuaValue.TNUMBER y, LuaValue.TNUMBER r]).1.ellipse_at
        w.objects.length = some ⟨x, y, r, r, 0, false⟩ ∧
    (agg_ellipse_new H w
        [LuaValue.TNUMBER x, LuaValue.TNUMBER y, LuaValue.TNUMBER r,
          LuaValue.TNUMBER r]).1.ellipse_at
        w.objects.length = some ⟨x, y, r, r, 0, false⟩ := by
  simp [agg_circle_new, agg_ellipse_new, luaL_checknumber, stack_at, lua_isnumber,
    lua_tonumber, World.ellipse_at, ellipse.init]

/-- C6: for all finite x0, y0, x1, y1 and a world whose mutex is free, `path (x0, y0)`
returns a new handle whose buffer is [move-to (x0, y0)]; then `line_to (x1, y1)`
and `close ()` on the handle both return, and leave the buffer exactly
[move-to (x0, y0), line-to (x1, y1), close-polygon]. A path constructed with no
argument has an empty buffer. -/
theorem path_line_close_scenario (H : lua_host) (w : World) (x0 y0 x1 y1 : Double)
    (hx0 : x0.isfinite = true) (hy0 : y0.isfinite = true)
    (hx1 : x1.isfinite = true) (hy1 : y1.isfinite = true) (hm : w.agg_mutex = false) :
    (agg_path_new H w [LuaValue.TNUMBER x0, LuaValue.TNUMBER y0]).2
      = Outcome.returned [LuaValue.TUSERDATA w.objects.length] ∧
    (agg_path_new H w [LuaValue.TNUMBER x0, LuaValue.TNUMBER y0]).1.path_at w.objects.length
      = some ⟨[path_entry.move_to x0 y0]⟩ ∧
    (method_call H (agg_path_new H w [LuaValue.TNUMBER x0, LuaValue.TNUMBER y0]).1
        (LuaValue.TUSERDATA w.objects.length) "line_to"
        [LuaValue.TNUMBER x1, LuaValue.TNUMBER y1]).2 = Outcome.returned [] ∧
    (method_call H
        (method_call H (agg_path_new H w [LuaValue.TNUMBER x0, LuaValue.TNUMBER y0]).1
          (LuaValue.TUSERDATA w.objects.length) "line_to"
          [LuaValue.TNUMBER x1, LuaValue.TNUMBER y1]).1
        (LuaValue.TUSERDATA w.objects.length) "close" []).2 = Outcome.returned [] ∧
    (method_call H
        (method_call H (agg_path_new H w [LuaValue.TNUMBER x0, LuaValue.TNUMBER y0]).1
          (LuaValue.TUSERDATA w.objects.length) "line_to"
          [LuaValue.TNUMBER x1, LuaValue.TNUMBER y1]).1
        (LuaValue.TUSERDATA w.objects.length) "close" []).1.path_at w.objects.length
      = some ⟨[path_entry.move_to x0 y0, path_entry.line_to x1 y1,
          path_entry.close_polygon]⟩ ∧
    (agg_path_new H w []).2 = Outcome.returned [LuaValue.TUSERDATA w.objects.length] ∧
    (agg_path_new H w []).1.path_at w.objects.length = some path_storage.empty := by
  rw [agg_path_new_two H w x0 y0 hx0 hy0, agg_path_new_none, hm]
  simp only []
  rw [method_call_line_to H w.objects _ _ x1 y1 hx1 hy1]
  simp only []
  rw [method_call_close]
  simp [path_at_append, path_storage.total_vertices, path_storage.line_to,
    path_storage.close_polygon, path_storage.subpath_open]

/-- The scenario path (0, 0), line_to (1, 1), close () from the initial world. -/
theorem path_line_close_scenario_witness :
    (method_call sample_host
        (method_call sample_host
          (agg_path_new sample_host World.init [LuaValue.TNUMBER d0, LuaValue.TNUMBER d0]).1
          (LuaValue.TUSERDATA 0) "line_to" [LuaValue.TNUMBER d1, LuaValue.TNUMBER d1]).1
        (LuaValue.TUSERDATA 0) "close" []).1.path_at 0
      = some ⟨[path_entry.move_to d0 d0, path_entry.line_to d1 d1,
          path_entry.close_polygon]⟩ :=
  (path_line_close_scenario sample_host World.init d0 d0 d1 d1
    (by decide) (by decide) (by decide) (by decide) rfl).2.2.2.2.1

/-- C7, as the code has it: from a world whose mutex is free, in every sequence
of calls of the entry points other than the path constructor, every `path_cmd`
call lies between a lock and the matching unlock; so does every `path_cmd` call
that the bound invocable `agg_path_cmd` makes. The path constructor
`agg_path_new` makes its `path_cmd` call, the initial move-to, on the buffer it
has just created, without locking the mutex, and changes no other buffer. -/
theorem path_cmd_calls_locked_outside_constructor (H : lua_host) (w : World)
    (cs : List Call) (hm : w.agg_mutex = false) (hcs : ∀ c ∈ cs, c.is_path_new = false) :
    (∃ ev, (run H w cs).trace = w.trace ++ ev ∧ locked_calls_only false ev = true) ∧
    (∀ (L : List LuaValue),
      ((agg_path_new H w L).1.trace = w.trace ∨
        (agg_path_new H w L).1.trace
          = w.trace ++ [Event.path_cmd w.objects.length CMD_MOVE_TO]) ∧
      (agg_path_new H w L).1.agg_mutex = w.agg_mutex ∧
      w.path_at w.objects.length = none ∧
      (∀ ref, ref ≠ w.objects.length →
        (agg_path_new H w L).1.path_at ref = w.path_at ref)) :=
  ⟨run_locked H cs w hm hcs, fun L => agg_path_new_effect H w L⟩

/-- A lookup, a line_to, a circle and a close on the world with one empty path. -/
theorem path_cmd_calls_locked_outside_constructor_witness :
    (∃ ev, (run sample_host world1
        [Call.path_index [LuaValue.TUSERDATA 0, LuaValue.TSTRING "line_to"],
         Call.path_cmd CMD_LINE_TO "ff"
           [LuaValue.TUSERDATA 0, LuaValue.TNUMBER d0, LuaValue.TNUMBER d1],
         Call.circle_new [LuaValue.TNUMBER d0, LuaValue.TNUMBER d0, LuaValue.TNUMBER d1],
         Call.path_cmd CMD_CLOSE "" [LuaValue.TUSERDATA 0]]).trace
      = world1.trace ++ ev ∧ locked_calls_only false ev = true) ∧
    (run sample_host world1
        [Call.path_index [LuaValue.TUSERDATA 0, LuaValue.TSTRING "line_to"],
         Call.path_cmd CMD_LINE_TO "ff"
           [LuaValue.TUSERDATA 0, LuaValue.TNUMBER d0, LuaValue.TNUMBER d1],
         Call.circle_new [LuaValue.TNUMBER d0, LuaValue.TNUMBER d0, LuaValue.TNUMBER d1],
         Call.path_cmd CMD_CLOSE "" [LuaValue.TUSERDATA 0]]).trace
      = [Event.lock, Event.path_cmd 0 CMD_LINE_TO, Event.unlock,
         Event.lock, Event.path_cmd 0 CMD_CLOSE, Event.unlock] :=
  ⟨(path_cmd_calls_locked_outside_constructor sample_host world1 _ rfl (by decide)).1,
   by decide⟩

/-- Counterexample to C7 as stated: from the initial world, with the mutex free, `path (0, 0)`
calls `path_cmd` and leaves a buffer with a vertex, and its trace holds that
call with no lock before it. -/
theorem path_new_unlocked_counterexample :
    World.init.agg_mutex = false ∧
    (agg_path_new sample_host World.init [LuaValue.TNUMBER d0, LuaValue.TNUMBER d0]).1.trace
      = [Event.path_cmd 0 CMD_MOVE_TO] ∧
    locked_calls_only false
      (agg_path_new sample_host World.init
        [LuaValue.TNUMBER d0, LuaValue.TNUMBER d0]).1.trace = false ∧
    (agg_path_new sample_host World.init
        [LuaValue.TNUMBER d0, LuaValue.TNUMBER d0]).1.path_at 0
      = some ⟨[path_entry.move_to d0 d0]⟩ := by
  decide

/-- C8: a bound invocation of a table command started with the mutex not held
ends with the mutex not held. Either it is rejected: it raises an error and the
world, trace included, is as before, so the mutex was not touched. Or it is
accepted: it returns, the trace grows by exactly a lock, one `path_cmd` call and
an unlock, and the target holds the result of that one call, which may be the
buffer unchanged. -/
theorem agg_path_cmd_releases_mutex (H : lua_host) (r : path_cmd_reg)
    (signature : String) (hr : r ∈ cmd_table) (hs : r.signature = some signature)
    (w : World) (L : List LuaValue) (hm : w.agg_mutex = false) :
    (agg_path_cmd H r.id signature w L).1.agg_mutex = false ∧
    ((∃ e, agg_path_cmd H r.id signature w L = (w, Outcome.raised e)) ∨
     (∃ p s ps ps1, w.path_at p = some ps ∧ path_cmd ps r.id s = some ps1 ∧
        agg_path_cmd H r.id signature w L
          = (⟨w.objects.set p (gs_object.path ps1), false,
              w.trace ++ [Event.lock, Event.path_cmd p r.id, Event.unlock]⟩,
             Outcome.returned []))) := by
  rcases agg_path_cmd_cases H r signature hr hs w L with
    ⟨e1, _, h1⟩ | ⟨_, e1, _, _, h1⟩ | ⟨_, s, _, _, hheld, _⟩ | ⟨p, s, ps, ps1, _, _, _, hps, hps1, h1⟩
  · rw [h1]
    exact ⟨hm, Or.inl ⟨e1, rfl⟩⟩
  · rw [h1]
    exact ⟨hm, Or.inl ⟨e1, rfl⟩⟩
  · rw [hm] at hheld
    simp at hheld
  · rw [h1]
    exact ⟨rfl, Or.inr ⟨p, s, ps, ps1, hps, hps1, rfl⟩⟩

/-- An applied line_to, a close that leaves the empty buffer as it is, and a line_to rejected for a NaN. -/
theorem agg_path_cmd_releases_mutex_witness :
    (agg_path_cmd sample_host CMD_LINE_TO "ff" world1
        [LuaValue.TUSERDATA 0, LuaValue.TNUMBER d0, LuaValue.TNUMBER d1]).1.agg_mutex = false ∧
    (agg_path_cmd sample_host CMD_CLOSE "" world1 [LuaValue.TUSERDATA 0]).1.agg_mutex = false ∧
    (agg_path_cmd sample_host CMD_CLOSE "" world1 [LuaValue.TUSERDATA 0])
      = (⟨[gs_object.path path_storage.empty], false,
            [Event.lock, Event.path_cmd 0 CMD_CLOSE, Event.unlock]⟩, Outcome.returned []) ∧
    (agg_path_cmd sample_host CMD_LINE_TO "ff" world1
        [LuaValue.TUSERDATA 0, LuaValue.TNUMBER dnan, LuaValue.TNUMBER d1]).1.agg_mutex = false :=
  ⟨(agg_path_cmd_releases_mutex sample_host ⟨CMD_LINE_TO, some "line_to", some "ff"⟩ "ff"
      (by decide) rfl world1 _ rfl).1,
   (agg_path_cmd_releases_mutex sample_host ⟨CMD_CLOSE, some "close", some ""⟩ ""
      (by decide) rfl world1 _ rfl).1,
   by decide,
   (agg_path_cmd_releases_mutex sample_host ⟨CMD_LINE_TO, some "line_to", some "ff"⟩ "ff"
      (by decide) rfl world1 _ rfl).1⟩

/-- C9: for every command of the table and every argument list that passes
validation, the frame holds the k-th numeric argument (in call order) in numeric
slot k-1 and the k-th boolean argument in boolean slot k-1, and `path_cmd`
applies the command's buffer primitive to the caller's arguments in their call
order; the bound invocable `agg_path_cmd`, called on a path handle with the mutex
free (directly or as the method call `p:name (args)`), leaves in the target
buffer what that primitive gives on the caller's arguments in call order. In
particular arc_to called with (rx, ry, angle, large_arc, sweep, x, y) fills
f = [rx, ry, angle, x, y], b = [large_arc, sweep], and the invocable applies the
buffer's arc_to (rx, ry, angle, large_arc, sweep, x, y) to the target. -/
theorem marshalling_keeps_call_order (H : lua_host) (r : path_cmd_reg)
    (name signature : String)
    (hr : r ∈ cmd_table) (hc : r.cmd = some name) (hs : r.signature = some signature)
    (p : LuaValue) (args : List LuaValue) (s : cmd_call_stack)
    (h : agg_path_cmd_loop H (p :: args) (cstr signature) 2 0 0 cmd_call_stack.uninit
      = Except.ok s) :
    (∀ k, s.get_f k = (numeric_args H (cstr signature) args).get? k) ∧
    (∀ k, s.get_b k = (boolean_args (cstr signature) args).get? k) ∧
    (∀ ps, path_cmd ps r.id s = path_buffer_command H ps name args ∧
      (path_cmd ps r.id s).isSome = true) ∧
    (∀ (rx ry angle x y : Double) (large_arc sweep : Bool),
      rx.isfinite = true → ry.isfinite = true → angle.isfinite = true →
      x.isfinite = true → y.isfinite = true →
      agg_path_cmd_loop H
          [p, LuaValue.TNUMBER rx, LuaValue.TNUMBER ry, LuaValue.TNUMBER angle,
            LuaValue.TBOOLEAN large_arc, LuaValue.TBOOLEAN sweep, LuaValue.TNUMBER x,
            LuaValue.TNUMBER y]
          (cstr "fffbbff") 2 0 0 cmd_call_stack.uninit
        = Except.ok ⟨[some rx, some ry, some angle, some x, some y, none],
            [some (if large_arc then 1 else 0), some (if sweep then 1 else 0)]⟩ ∧
      ∀ ps, path_cmd ps CMD_ARC_TO
          ⟨[some rx, some ry, some angle, some x, some y, none],
            [some (if large_arc then 1 else 0), some (if sweep then 1 else 0)]⟩
        = some (ps.arc_to rx ry angle large_arc sweep x y)) ∧
    (∀ (w : World) (ref : Nat) (ps : path_storage),
      check_agg_path w (p :: args) 1 = Except.ok ref → w.agg_mutex = false →
      w.path_at ref = some ps →
      ∃ ps1, path_buffer_command H ps name args = some ps1 ∧
        agg_path_cmd H r.id signature w (p :: args)
          = (⟨w.objects.set ref (gs_object.path ps1), false,
              w.trace ++ [Event.lock, Event.path_cmd ref r.id, Event.unlock]⟩,
             Outcome.returned []) ∧
        method_call H w p name args
          = (⟨w.objects.set ref (gs_object.path ps1), false,
              w.trace ++ [Event.lock, Event.path_cmd ref r.id, Event.unlock]⟩,
             Outcome.returned [])) ∧
    (∀ (w : World) (ref : Nat) (ps : path_storage) (rx ry angle x y : Double)
        (large_arc sweep : Bool),
      w.agg_mutex = false → w.path_at ref = some ps →
      rx.isfinite = true → ry.isfinite = true → angle.isfinite = true →
      x.isfinite = true → y.isfinite = true →
      agg_path_cmd H CMD_ARC_TO "fffbbff" w
          [LuaValue.TUSERDATA ref, LuaValue.TNUMBER rx, LuaValue.TNUMBER ry,
            LuaValue.TNUMBER angle, LuaValue.TBOOLEAN large_arc, LuaValue.TBOOLEAN sweep,
            LuaValue.TNUMBER x, LuaValue.TNUMBER y]
        = (⟨w.objects.set ref
              (gs_object.path (ps.arc_to rx ry angle large_arc sweep x y)), false,
            w.trace ++ [Event.lock, Event.path_cmd ref CMD_ARC_TO, Event.unlock]⟩,
           Outcome.returned [])) := by
  obtain ⟨h1, _, _, _⟩ := loop_table_frame H (p :: args) r signature hr hs s h
  simp only [List.drop_one, List.tail_cons] at h1
  refine ⟨?_, ?_, ?_, ?_, ?_, ?_⟩
  · intro k
    rw [h1, frame_of_get_f]
  · intro k
    rw [h1, frame_of_get_b]
  · intro ps
    exact ⟨loop_table_command H r name signature hr hc hs p args s h ps,
      loop_table_path_cmd H (p :: args) r signature hr hs s h ps⟩
  · intro rx ry angle x y large_arc sweep h0 h1 h2 h3 h4
    exact ⟨loop_arc_to H p rx ry angle x y large_arc sweep h0 h1 h2 h3 h4,
      fun ps => path_cmd_arc_frame ps rx ry angle x y large_arc sweep⟩
  · intro w ref ps hchk hm hps
    exact agg_path_cmd_table_apply H r name signature hr hc hs p args s h w ref ps hchk hm hps
  · intro w ref ps rx ry angle x y large_arc sweep hm hps h0 h1 h2 h3 h4
    have hchk : check_agg_path w
        [LuaValue.TUSERDATA ref, LuaValue.TNUMBER rx, LuaValue.TNUMBER ry,
          LuaValue.TNUMBER angle, LuaValue.TBOOLEAN large_arc, LuaValue.TBOOLEAN sweep,
          LuaValue.TNUMBER x, LuaValue.TNUMBER y] 1 = Except.ok ref := by
      simp [check_agg_path, stack_at, hps]
    exact agg_path_cmd_accept H CMD_ARC_TO "fffbbff" w _ ref _ ps _ hchk
      (loop_arc_to H _ rx ry angle x y large_arc sweep h0 h1 h2 h3 h4) hm hps
      (path_cmd_arc_frame ps rx ry angle x y large_arc sweep)

/-- The call arc_to (0, 1, 1, true, false, 1, 0) on the empty path of a world with
one path: the frame, what `path_cmd` does with it, and what the bound invocable
and the method call leave in the world. -/
theorem marshalling_keeps_call_order_witness :
    (frame_of [d0, d1, d1, d1, d0] [1, 0]).get_f 3 = some d1 ∧
    (frame_of [d0, d1, d1, d1, d0] [1, 0]).get_b 0 = some 1 ∧
    path_cmd path_storage.empty CMD_ARC_TO (frame_of [d0, d1, d1, d1, d0] [1, 0])
      = some ⟨[path_entry.arc_to d0 d1 d1 true false d1 d0]⟩ ∧
    agg_path_cmd sample_host CMD_ARC_TO "fffbbff" world1
        [LuaValue.TUSERDATA 0, LuaValue.TNUMBER d0, LuaValue.TNUMBER d1, LuaValue.TNUMBER d1,
          LuaValue.TBOOLEAN true, LuaValue.TBOOLEAN false, LuaValue.TNUMBER d1,
          LuaValue.TNUMBER d0]
      = (⟨[gs_object.path ⟨[path_entry.arc_to d0 d1 d1 true false d1 d0]⟩], false,
          [Event.lock, Event.path_cmd 0 CMD_ARC_TO, Event.unlock]⟩, Outcome.returned []) ∧
    (∃ ps1, path_buffer_command sample_host path_storage.empty "arc_to"
        [LuaValue.TNUMBER d0, LuaValue.TNUMBER d1, LuaValue.TNUMBER d1, LuaValue.TBOOLEAN true,
          LuaValue.TBOOLEAN false, LuaValue.TNUMBER d1, LuaValue.TNUMBER d0] = some ps1 ∧
      method_call sample_host world1 (LuaValue.TUSERDATA 0) "arc_to"
        [LuaValue.TNUMBER d0, LuaValue.TNUMBER d1, LuaValue.TNUMBER d1, LuaValue.TBOOLEAN true,
          LuaValue.TBOOLEAN false, LuaValue.TNUMBER d1, LuaValue.TNUMBER d0]
        = (⟨world1.objects.set 0 (gs_object.path ps1), false,
            world1.trace ++ [Event.lock, Event.path_cmd 0 CMD_ARC_TO, Event.unlock]⟩,
           Outcome.returned [])) ∧
    (method_call sample_host world1 (LuaValue.TUSERDATA 0) "arc_to"
        [LuaValue.TNUMBER d0, LuaValue.TNUMBER d1, LuaValue.TNUMBER d1, LuaValue.TBOOLEAN true,
          LuaValue.TBOOLEAN false, LuaValue.TNUMBER d1, LuaValue.TNUMBER d0]).1.path_at 0
      = some ⟨[path_entry.arc_to d0 d1 d1 true false d1 d0]⟩ :=
  have h := marshalling_keeps_call_order sample_host
    ⟨CMD_ARC_TO, some "arc_to", some "fffbbff"⟩ "arc_to" "fffbbff" (by decide) rfl rfl
    (LuaValue.TUSERDATA 0)
    [LuaValue.TNUMBER d0, LuaValue.TNUMBER d1, LuaValue.TNUMBER d1, LuaValue.TBOOLEAN true,
      LuaValue.TBOOLEAN false, LuaValue.TNUMBER d1, LuaValue.TNUMBER d0]
    (frame_of [d0, d1, d1, d1, d0] [1, 0]) (by rfl)
  ⟨(h.1 3).trans (by decide), (h.2.1 0).trans (by decide),
    ((h.2.2.1 path_storage.empty).1).trans (by decide),
    h.2.2.2.2.2 world1 0 path_storage.empty d0 d1 d1 d1 d0 true false rfl rfl
      (by decide) (by decide) (by decide) (by decide) (by decide),
    (h.2.2.2.2.1 world1 0 path_storage.empty (by rfl) rfl rfl).elim
      (fun ps1 hp => ⟨ps1, hp.1, hp.2.2⟩),
    by decide⟩

/-- C10: for every entry of `cmd_table` the signature holds only the characters f
and b, at most 6 f and at most 2 b, so the marshalling loop never writes outside
the frame; and after a marshalling that passes validation the slots written
(those that hold a value) are exactly the slots the case of `path_cmd` for the
entry's id reads, where the slots read are those `path_cmd` needs written in
order to be defined. -/
theorem frame_slots_written_are_read (r : path_cmd_reg) (signature : String)
    (hr : r ∈ cmd_table) (hs : r.signature = some signature) :
    (∀ c ∈ cstr signature, c = 'f' ∨ c = 'b') ∧
    (cstr signature).count 'f' ≤ 6 ∧ (cstr signature).count 'b' ≤ 2 ∧
    (∀ (H : lua_host) (L : List LuaValue),
      agg_path_cmd_loop H L (cstr signature) 2 0 0 cmd_call_stack.uninit
        ≠ Except.error Fault.undefined) ∧
    (∀ (H : lua_host) (L : List LuaValue) (s : cmd_call_stack),
      agg_path_cmd_loop H L (cstr signature) 2 0 0 cmd_call_stack.uninit = Except.ok s →
        (∀ i, (s.get_f i).isSome = true ↔ i ∈ path_cmd_reads_f r.id) ∧
        (∀ i, (s.get_b i).isSome = true ↔ i ∈ path_cmd_reads_b r.id) ∧
        ∀ ps, (path_cmd ps r.id s).isSome = true) ∧
    (∀ (ps : path_storage) (s : cmd_call_stack),
      (path_cmd ps r.id s).isSome = true ↔
        (∀ i ∈ path_cmd_reads_f r.id, (s.get_f i).isSome = true) ∧
        (∀ i ∈ path_cmd_reads_b r.id, (s.get_b i).isSome = true)) := by
  obtain ⟨hfb, hf, hb, _⟩ := table_signature_ok r signature hr hs
  refine ⟨hfb, by simpa using hf, by simpa using hb, ?_, ?_, ?_⟩
  · intro H L
    exact loop_table_defined H L r signature hr hs
  · intro H L s h
    obtain ⟨h1, h2⟩ := loop_table_slots H L r signature hr hs s h
    exact ⟨h1, h2, loop_table_path_cmd H L r signature hr hs s h⟩
  · intro ps s
    exact path_cmd_some_iff ps r.id s

/-- The entry of arc_to and the call arc_to (0, 1, 1, true, false, 1, 0). -/
theorem frame_slots_written_are_read_witness :
    agg_path_cmd_loop sample_host
        [LuaValue.TUSERDATA 0, LuaValue.TNUMBER d0, LuaValue.TNUMBER d1, LuaValue.TNUMBER d1,
          LuaValue.TBOOLEAN true, LuaValue.TBOOLEAN false, LuaValue.TNUMBER d1,
          LuaValue.TNUMBER d0]
        (cstr "fffbbff") 2 0 0 cmd_call_stack.uninit
      = Except.ok (frame_of [d0, d1, d1, d1, d0] [1, 0]) ∧
    (∀ i, ((frame_of [d0, d1, d1, d1, d0] [1, 0]).get_f i).isSome = true
        ↔ i ∈ path_cmd_reads_f CMD_ARC_TO) ∧
    (∀ i, ((frame_of [d0, d1, d1, d1, d0] [1, 0]).get_b i).isSome = true
        ↔ i ∈ path_cmd_reads_b CMD_ARC_TO) ∧
    (cstr "fffbbff").count 'f' ≤ 6 ∧ (cstr "fffbbff").count 'b' ≤ 2 :=
  have h := frame_slots_written_are_read ⟨CMD_ARC_TO, some "arc_to", some "fffbbff"⟩ "fffbbff"
    (by decide) rfl
  have hloop : agg_path_cmd_loop sample_host
        [LuaValue.TUSERDATA 0, LuaValue.TNUMBER d0, LuaValue.TNUMBER d1, LuaValue.TNUMBER d1,
          LuaValue.TBOOLEAN true, LuaValue.TBOOLEAN false, LuaValue.TNUMBER d1,
          LuaValue.TNUMBER d0]
        (cstr "fffbbff") 2 0 0 cmd_call_stack.uninit
      = Except.ok (frame_of [d0, d1, d1, d1, d0] [1, 0]) := by rfl
  ⟨hloop, (h.2.2.2.2.1 sample_host _ _ hloop).1, (h.2.2.2.2.1 sample_host _ _ hloop).2.1,
    h.2.1, h.2.2.1⟩

end LuaDraw
